import Mathlib

/-!
Verification of the local-LLM provisioning and supervision engine of the
aireader repository (src-tauri/src/builtin_llm.rs), as a shallow embedding.

Rust strings are modelled as Lean `String` / `List Char`, paths as lists of
components (`List String`), machine integers as `Nat` / `Int` (the involved
quantities never overflow their Rust types in the modelled code paths),
fallible operations as `Except String`, and filesystem / network effects as
explicit state or oracle parameters.  Platform-conditional code is modelled
for the non-macOS (Linux/Windows) configuration; the spots where that
matters are noted next to the definition.
-/

namespace Aireader

instance {ε α : Type} [DecidableEq ε] [DecidableEq α] :
    DecidableEq (Except ε α) := fun x y =>
  match x, y with
  | .ok a, .ok b =>
    if h : a = b then .isTrue (congrArg Except.ok h)
    else .isFalse (fun hh => h (Except.ok.inj hh))
  | .error a, .error b =>
    if h : a = b then .isTrue (congrArg Except.error h)
    else .isFalse (fun hh => h (Except.error.inj hh))
  | .ok _, .error _ => .isFalse (fun hh => Except.noConfusion hh)
  | .error _, .ok _ => .isFalse (fun hh => Except.noConfusion hh)


/-! ## Model-identity sanitization (builtin_llm.rs, sanitize_model_id) -/

/-- Default model id used by `sanitize_model_id` for absent/empty input. -/
def defaultModelId : List Char := "qwen3_0_6b_q4_k_m".toList

/-- Rust `ch.is_ascii_alphanumeric() || ch == '_' || ch == '-' || ch == '.'`.
Lean `Char.isAlphanum` is the same ASCII-only predicate. -/
def allowedIdChar (c : Char) : Bool :=
  c.isAlphanum || c == '_' || c == '-' || c == '.'

/-- Remove leading and trailing characters satisfying `p` (Rust `str::trim`
and `str::trim_matches` shape). -/
def trimBy (p : Char → Bool) (l : List Char) : List Char :=
  ((l.dropWhile p).reverse.dropWhile p).reverse

/-- Rust `str::trim_matches(c)`. -/
def trimMatch (c : Char) (l : List Char) : List Char :=
  trimBy (fun x => x == c) l

/-- Rust `sanitize_model_id` (builtin_llm.rs lines 322-340), on character
lists.  `none` stands for a `None` argument. -/
def sanitizeModelIdChars (raw : Option (List Char)) : List Char :=
  let raw0 := raw.getD defaultModelId
  let rawT := trimBy (fun c => c.isWhitespace) raw0
  if rawT.isEmpty then defaultModelId
  else
    let out := rawT.map (fun ch => if allowedIdChar ch then ch else '_')
    let out := trimMatch '-' (trimMatch '_' (trimMatch '.' out))
    if out.isEmpty then defaultModelId else out.take 80

/-- String-level wrapper of `sanitizeModelIdChars`, keeping the source name. -/
def sanitize_model_id (raw : Option String) : String :=
  String.mk (sanitizeModelIdChars (raw.map String.toList))

lemma mem_trimBy {p : Char → Bool} {l : List Char} {a : Char}
    (h : a ∈ trimBy p l) : a ∈ l := by
  unfold trimBy at h
  rw [List.mem_reverse] at h
  have h1 := List.Sublist.mem h (List.dropWhile_sublist p)
  rw [List.mem_reverse] at h1
  exact (List.dropWhile_sublist p).mem h1

lemma mem_trimMatch {c : Char} {l : List Char} {a : Char}
    (h : a ∈ trimMatch c l) : a ∈ l := mem_trimBy h

lemma sanitizeModelIdChars_spec (raw : Option (List Char)) :
    sanitizeModelIdChars raw ≠ [] ∧
    (sanitizeModelIdChars raw).length ≤ 80 ∧
    ∀ c ∈ sanitizeModelIdChars raw, allowedIdChar c = true := by
  have hdef : defaultModelId ≠ [] ∧ defaultModelId.length ≤ 80 ∧
      ∀ c ∈ defaultModelId, allowedIdChar c = true := by decide
  unfold sanitizeModelIdChars
  set raw0 := raw.getD defaultModelId with hraw0
  set rawT := trimBy (fun c => c.isWhitespace) raw0 with hrawT
  by_cases hE : rawT.isEmpty = true
  · rw [if_pos hE]
    exact hdef
  · rw [if_neg hE]
    set out0 := rawT.map (fun ch => if allowedIdChar ch then ch else '_') with hout0
    set out := trimMatch '-' (trimMatch '_' (trimMatch '.' out0)) with hout
    have hmem : ∀ c ∈ out, allowedIdChar c = true := by
      intro c hc
      have hc0 : c ∈ out0 := mem_trimMatch (mem_trimMatch (mem_trimMatch hc))
      rw [hout0, List.mem_map] at hc0
      obtain ⟨x, _, hx⟩ := hc0
      by_cases hax : allowedIdChar x = true
      · rw [if_pos hax] at hx
        rw [← hx]
        exact hax
      · rw [if_neg hax] at hx
        rw [← hx]
        decide
    by_cases hOE : out.isEmpty = true
    · rw [if_pos hOE]
      exact hdef
    · rw [if_neg hOE]
      have hne : out ≠ [] := by
        intro hnil
        exact hOE (by rw [hnil]; rfl)
      have hlen : 0 < out.length := List.length_pos.mpr hne
      refine ⟨?_, ?_, ?_⟩
      · intro hnil
        have h80 := List.length_take 80 out
        rw [hnil] at h80
        simp only [List.length_nil] at h80
        omega
      · rw [List.length_take]
        omega
      · intro c hc
        exact hmem c ((List.take_sublist 80 out).mem hc)

/-- C4: Model-identity sanitization is total: for every input (including
`None`, empty, all-whitespace, over-long, or reserved-character strings),
`sanitize_model_id` returns a non-empty identity of at most 80 characters
drawn only from ASCII alphanumerics and the characters `_`, `-`, `.`. -/
theorem C4_sanitize_model_id_total (raw : Option String) :
    sanitize_model_id raw ≠ "" ∧
    (sanitize_model_id raw).length ≤ 80 ∧
    ∀ c ∈ (sanitize_model_id raw).toList, allowedIdChar c = true := by
  obtain ⟨h1, h2, h3⟩ := sanitizeModelIdChars_spec (raw.map String.toList)
  refine ⟨?_, ?_, ?_⟩
  · intro h
    apply h1
    have hd := congrArg String.data h
    simpa [sanitize_model_id] using hd
  · simpa [sanitize_model_id, String.length] using h2
  · intro c hc
    exact h3 c (by simpa [sanitize_model_id, String.toList] using hc)

/-! ## Mirror probing and streaming download
(builtin_llm.rs, probe_fastest_mirror / download_to_file) -/

/-- Outcome of the streaming GET request to one mirror, as observed by
`download_to_file`: either `client.get(url).send()` fails, or a response
arrives carrying an HTTP status, the optional declared Content-Length, and
a stream of body chunks (each chunk either a byte count successfully
received and written, or a mid-stream transport error). -/
inductive MirrorResp where
  | sendErr (msg : String)
  | resp (status : Nat) (len : Option Nat) (chunks : List (Except String Nat))
deriving DecidableEq

/-- reqwest `StatusCode::is_success()`: a 2xx status. -/
def httpSuccess (status : Nat) : Bool := 200 ≤ status && status < 300

/-- The unique non-empty URLs actually probed by `probe_fastest_mirror`
(lines 501-518): each distinct URL is probed once, keyed to the index of
its first occurrence; `i` is the index in the full list of the head of the
remaining sublist. -/
def probeTasksAux (seen : List String) : Nat → List String → List (Nat × String)
  | _, [] => []
  | i, u :: rest =>
    if u = "" then probeTasksAux seen (i+1) rest
    else if u ∈ seen then probeTasksAux seen (i+1) rest
    else (i, u) :: probeTasksAux (u :: seen) (i+1) rest

/-- Stable insertion keeping `key` values ascending; `sortByLat` below
models Rust `sort_by_key`, which is a stable ascending sort. -/
def insertByLat {α : Type} (key : α → Nat) (x : α) : List α → List α
  | [] => [x]
  | y :: ys => if key x < key y then x :: y :: ys else y :: insertByLat key x ys

/-- Stable ascending sort by `key` (Rust `sort_by_key`). -/
def sortByLat {α : Type} (key : α → Nat) (l : List α) : List α :=
  l.foldl (fun acc x => insertByLat key x acc) []

/-- Rust `enumerate()` starting at index `i`. -/
def enumL {α : Type} : Nat → List α → List (Nat × α)
  | _, [] => []
  | i, a :: l => (i, a) :: enumL (i+1) l

/-- Model of `probe_fastest_mirror` (lines 496-529).  The HEAD-probe
outcome is supplied by the oracle `lat`: for a URL that answered with a
success (or METHOD_NOT_ALLOWED) status within the 8-second timeout it
gives the round-trip time, otherwise `none`.  Returns the indices of the
responding probed URLs sorted by latency ascending (empty when every probe
failed or timed out). -/
def probe_fastest_mirror (lat : String → Option Nat) (urls : List String) :
    List Nat :=
  let tasks := probeTasksAux [] 0 urls
  let results := tasks.filterMap (fun iu => (lat iu.2).map (fun d => (iu.1, d)))
  (sortByLat (fun r => r.2) results).map (fun r => r.1)

/-- The mirror order attempted by `download_to_file` (lines 545-557): when
the probe result is empty, the original list unchanged; otherwise the
responding indices in probe order followed by every non-empty URL whose
index the probe did not select. -/
def orderedUrls (lat : String → Option Nat) (urls : List String) :
    List String :=
  let order := probe_fastest_mirror lat urls
  if order.isEmpty then urls
  else
    (order.filterMap (fun i => urls[i]?)) ++
      ((enumL 0 urls).filterMap (fun iu =>
        if iu.2 ≠ "" ∧ iu.1 ∉ order then some iu.2 else none))

/-- Filesystem view of one download call: whether the `.part` temporary
file and the destination file currently exist. -/
structure DlFs where
  tmp : Bool
  dest : Bool
deriving DecidableEq, Repr

/-- Result of the inner `while let Some(item) = stream.next()` loop of
`download_to_file` (lines 603-629).  `k` threads the index of the next
read of the shared cancellation flag. -/
inductive StreamOut where
  | cancelled (k : Nat)
  | failed (e : String) (k : Nat)
  | done (written : Nat) (k : Nat)
deriving DecidableEq, Repr

/-- The chunk loop of `download_to_file`: before each chunk the shared
cancellation flag is read (`cancel k` is the value of the k-th read); a
chunk error aborts with the error, otherwise the byte count accumulates
into `written`. -/
def runStream (cancel : Nat → Bool) : Nat → Nat → List (Except String Nat) →
    StreamOut
  | k, written, [] => .done written k
  | k, written, item :: rest =>
    if cancel k then .cancelled (k+1)
    else
      match item with
      | .error e => .failed e (k+1)
      | .ok n => runStream cancel (k+1) (written + n) rest

/-- The mirror loop of `download_to_file` (lines 559-661) over an already
ordered URL list.  `net` is the GET oracle, `cancel` the sequence of values
read from the shared cancellation flag (one read before each mirror attempt
and one per body chunk), `k` the index of the next flag read, `errors` the
failure strings collected so far.  Returns the call result together with
the final filesystem view.  The progress events (`report_progress`) carry
no state and are not modelled; filesystem writes themselves succeed. -/
def dlLoop (net : String → MirrorResp) (cancel : Nat → Bool) :
    Nat → List String → List String → DlFs → Except String Unit × DlFs
  | _, errors, [], fs =>
    (.error (if errors.isEmpty then "download failed"
             else "download failed: " ++ String.intercalate "; " errors),
     { fs with tmp := false })
  | k, errors, url :: rest, fs =>
    if cancel k then (.error "Download cancelled", { fs with tmp := false })
    else
      match net url with
      | .sendErr e =>
        dlLoop net cancel (k+1) (errors ++ [url ++ " -> " ++ e]) rest fs
      | .resp status len chunks =>
        if httpSuccess status = false then
          dlLoop net cancel (k+1)
            (errors ++ [url ++ " -> HTTP " ++ toString status]) rest fs
        else
          let fs1 : DlFs := { fs with tmp := true }
          match runStream cancel (k+1) 0 chunks with
          | .cancelled _ => (.error "Download cancelled", { fs1 with tmp := false })
          | .failed e _ => (.error e, fs1)
          | .done written k2 =>
            match len with
            | some l =>
              if written ≠ l then
                dlLoop net cancel k2
                  (errors ++ [url ++ " -> incomplete download (" ++
                    toString written ++ "/" ++ toString l ++ ")"])
                  rest { fs1 with tmp := false }
              else (.ok (), { tmp := false, dest := true })
            | none => (.ok (), { tmp := false, dest := true })

/-- Model of `download_to_file` (lines 531-661) from the point where the
mirror order has been computed; the `create_dir_all` / client-construction
prologue (lines 532-539) has no effect on the modelled state. -/
def download_to_file (net : String → MirrorResp) (lat : String → Option Nat)
    (cancel : Nat → Bool) (urls : List String) (fs : DlFs) :
    Except String Unit × DlFs :=
  dlLoop net cancel 0 [] (orderedUrls lat urls) fs

/-- Side condition on the network oracle: no mid-stream transport error
carries the exact reserved cancellation message (reqwest error strings
describe the transport failure; the literal `Download cancelled` string is
produced only by the cancellation branches of `download_to_file`). -/
def netClean (net : String → MirrorResp) : Prop :=
  ∀ url status len chunks, net url = .resp status len chunks →
    ∀ e, Except.error e ∈ chunks → e ≠ "Download cancelled"

lemma runStream_failed_mem {cancel : Nat → Bool} :
    ∀ {chunks : List (Except String Nat)} {k w e j},
      runStream cancel k w chunks = .failed e j → Except.error e ∈ chunks := by
  intro chunks
  induction chunks with
  | nil => intro k w e j h; simp [runStream] at h
  | cons item rest ih =>
    intro k w e j h
    rw [runStream.eq_def] at h
    dsimp only at h
    by_cases hc : cancel k = true
    · rw [if_pos hc] at h; exact absurd h (by simp)
    · rw [if_neg hc] at h
      match item with
      | .error e0 =>
        simp only [StreamOut.failed.injEq] at h
        exact h.1 ▸ List.mem_cons_self _ _
      | .ok n => exact List.mem_cons_of_mem _ (ih h)

lemma dlfail_ne_cancelled (s : String) :
    ("download failed: " ++ s) ≠ "Download cancelled" := by
  intro h
  have hd : "download failed: ".data ++ s.data = "Download cancelled".data := by
    rw [← String.data_append, h]
  have h1 : ("download failed: ".data ++ s.data).take
      ("download failed: ".data).length = "download failed: ".data :=
    List.take_left ..
  rw [show ("download failed: ".data).length = 17 from by decide, hd] at h1
  exact absurd h1 (by decide)

/-- Result of the base case of the mirror loop (all mirrors exhausted). -/
lemma dlLoop_nil (net : String → MirrorResp) (cancel : Nat → Bool)
    (k : Nat) (errors : List String) (fs : DlFs) :
    dlLoop net cancel k errors [] fs =
      (.error (if errors.isEmpty then "download failed"
               else "download failed: " ++ String.intercalate "; " errors),
       { fs with tmp := false }) := by
  rw [dlLoop]

/-- Cancellation observed before a mirror attempt. -/
lemma dlLoop_cons_cancel {cancel : Nat → Bool} {k : Nat}
    (net : String → MirrorResp) (errors : List String) (url : String)
    (rest : List String) (fs : DlFs) (hc : cancel k = true) :
    dlLoop net cancel k errors (url :: rest) fs =
      (.error "Download cancelled", { fs with tmp := false }) := by
  rw [dlLoop, if_pos hc]

/-- A failing send falls through to the next mirror. -/
lemma dlLoop_cons_sendErr {net : String → MirrorResp} {cancel : Nat → Bool}
    {k : Nat} {url : String} {e : String} (errors : List String)
    (rest : List String) (fs : DlFs) (hc : cancel k = false)
    (hne : net url = .sendErr e) :
    dlLoop net cancel k errors (url :: rest) fs =
      dlLoop net cancel (k+1) (errors ++ [url ++ " -> " ++ e]) rest fs := by
  rw [dlLoop, if_neg (by rw [hc]; exact Bool.false_ne_true), hne]

/-- A non-success HTTP status falls through to the next mirror. -/
lemma dlLoop_cons_httpFail {net : String → MirrorResp} {cancel : Nat → Bool}
    {k : Nat} {url : String} {status : Nat} {len : Option Nat}
    {chunks : List (Except String Nat)} (errors : List String)
    (rest : List String) (fs : DlFs) (hc : cancel k = false)
    (hne : net url = .resp status len chunks)
    (hs : httpSuccess status = false) :
    dlLoop net cancel k errors (url :: rest) fs =
      dlLoop net cancel (k+1)
        (errors ++ [url ++ " -> HTTP " ++ toString status]) rest fs := by
  rw [dlLoop, if_neg (by rw [hc]; exact Bool.false_ne_true), hne]
  dsimp only
  rw [if_pos hs]

/-- Cancellation observed between chunks aborts, removing the temporary
file. -/
lemma dlLoop_cons_streamCancel {net : String → MirrorResp}
    {cancel : Nat → Bool} {k : Nat} {url : String} {status : Nat}
    {len : Option Nat} {chunks : List (Except String Nat)} {j : Nat}
    (errors : List String) (rest : List String) (fs : DlFs)
    (hc : cancel k = false) (hne : net url = .resp status len chunks)
    (hs : httpSuccess status = true)
    (hrs : runStream cancel (k+1) 0 chunks = .cancelled j) :
    dlLoop net cancel k errors (url :: rest) fs =
      (.error "Download cancelled", { fs with tmp := false }) := by
  rw [dlLoop, if_neg (by rw [hc]; exact Bool.false_ne_true), hne]
  dsimp only
  rw [if_neg (by rw [hs]; exact fun hx => Bool.noConfusion hx), hrs]

/-- A mid-stream chunk error aborts the whole call with that error; the
temporary file is left in place. -/
lemma dlLoop_cons_streamFail {net : String → MirrorResp}
    {cancel : Nat → Bool} {k : Nat} {url : String} {status : Nat}
    {len : Option Nat} {chunks : List (Except String Nat)} {e : String}
    {j : Nat} (errors : List String) (rest : List String) (fs : DlFs)
    (hc : cancel k = false) (hne : net url = .resp status len chunks)
    (hs : httpSuccess status = true)
    (hrs : runStream cancel (k+1) 0 chunks = .failed e j) :
    dlLoop net cancel k errors (url :: rest) fs =
      (.error e, { fs with tmp := true }) := by
  rw [dlLoop, if_neg (by rw [hc]; exact Bool.false_ne_true), hne]
  dsimp only
  rw [if_neg (by rw [hs]; exact fun hx => Bool.noConfusion hx), hrs]

/-- A completed stream whose byte count misses the declared length removes
the temporary file and falls through to the next mirror. -/
lemma dlLoop_cons_mismatch {net : String → MirrorResp} {cancel : Nat → Bool}
    {k : Nat} {url : String} {status : Nat}
    {chunks : List (Except String Nat)} {w k2 l : Nat}
    (errors : List String) (rest : List String) (fs : DlFs)
    (hc : cancel k = false) (hne : net url = .resp status (some l) chunks)
    (hs : httpSuccess status = true)
    (hrs : runStream cancel (k+1) 0 chunks = .done w k2) (hw : w ≠ l) :
    dlLoop net cancel k errors (url :: rest) fs =
      dlLoop net cancel k2
        (errors ++ [url ++ " -> incomplete download (" ++
          toString w ++ "/" ++ toString l ++ ")"]) rest
        { fs with tmp := false } := by
  rw [dlLoop, if_neg (by rw [hc]; exact Bool.false_ne_true), hne]
  dsimp only
  rw [if_neg (by rw [hs]; exact fun hx => Bool.noConfusion hx), hrs]
  dsimp only
  rw [if_pos hw]

/-- A completed stream matching the declared length renames the temporary
file over the destination and succeeds. -/
lemma dlLoop_cons_success {net : String → MirrorResp} {cancel : Nat → Bool}
    {k : Nat} {url : String} {status : Nat} {len : Option Nat}
    {chunks : List (Except String Nat)} {w k2 : Nat}
    (errors : List String) (rest : List String) (fs : DlFs)
    (hc : cancel k = false) (hne : net url = .resp status len chunks)
    (hs : httpSuccess status = true)
    (hrs : runStream cancel (k+1) 0 chunks = .done w k2)
    (hlen : ∀ l, len = some l → w = l) :
    dlLoop net cancel k errors (url :: rest) fs =
      (.ok (), { tmp := false, dest := true }) := by
  rw [dlLoop, if_neg (by rw [hc]; exact Bool.false_ne_true), hne]
  dsimp only
  rw [if_neg (by rw [hs]; exact fun hx => Bool.noConfusion hx), hrs]
  match len, hlen with
  | some l, hlen =>
    dsimp only
    rw [if_neg (by intro hx; exact hx (hlen l rfl))]
  | none, _ => rfl

/-- After any run of the mirror loop that ends in the cancellation error,
the temporary file has been removed and the destination file is untouched. -/
lemma dlLoop_cancelled_clean {net : String → MirrorResp} {cancel : Nat → Bool}
    (hclean : netClean net) :
    ∀ (urls : List String) (k : Nat) (errors : List String) (fs fs' : DlFs),
      dlLoop net cancel k errors urls fs = (.error "Download cancelled", fs') →
      fs'.tmp = false ∧ fs'.dest = fs.dest := by
  intro urls
  induction urls with
  | nil =>
    intro k errors fs fs' h
    rw [dlLoop_nil, Prod.mk.injEq] at h
    by_cases he : errors.isEmpty = true
    · rw [if_pos he] at h
      exact absurd (Except.error.inj h.1) (by decide)
    · rw [if_neg he] at h
      exact absurd (Except.error.inj h.1) (dlfail_ne_cancelled _)
  | cons url rest ih =>
    intro k errors fs fs' h
    by_cases hc : cancel k = true
    · rw [dlLoop_cons_cancel net errors url rest fs hc, Prod.mk.injEq] at h
      rw [← h.2]
      exact ⟨rfl, rfl⟩
    · replace hc : cancel k = false := by
        cases hcv : cancel k
        · rfl
        · exact absurd hcv hc
      match hne : net url with
      | .sendErr e =>
        rw [dlLoop_cons_sendErr errors rest fs hc hne] at h
        exact ih _ _ _ _ h
      | .resp status len chunks =>
        by_cases hs : httpSuccess status = false
        · rw [dlLoop_cons_httpFail errors rest fs hc hne hs] at h
          exact ih _ _ _ _ h
        · replace hs : httpSuccess status = true := by
            cases hsv : httpSuccess status
            · exact absurd hsv hs
            · rfl
          match hrs : runStream cancel (k+1) 0 chunks with
          | .cancelled j =>
            rw [dlLoop_cons_streamCancel errors rest fs hc hne hs hrs,
              Prod.mk.injEq] at h
            rw [← h.2]
            exact ⟨rfl, rfl⟩
          | .failed e j =>
            rw [dlLoop_cons_streamFail errors rest fs hc hne hs hrs,
              Prod.mk.injEq] at h
            have he : e = "Download cancelled" := Except.error.inj h.1
            exact absurd he (hclean url status len chunks hne e
              (runStream_failed_mem hrs))
          | .done written k2 =>
            match len, hne with
            | some l, hne =>
              by_cases hw : written ≠ l
              · rw [dlLoop_cons_mismatch errors rest fs hc hne hs hrs hw] at h
                have hrec := ih _ _ _ _ h
                exact ⟨hrec.1, hrec.2⟩
              · rw [dlLoop_cons_success errors rest fs hc hne hs hrs
                  (fun l0 hl0 => by
                    cases hl0
                    exact Classical.byContradiction fun hx => hw hx),
                  Prod.mk.injEq] at h
                exact absurd h.1 (by simp)
            | none, hne =>
              rw [dlLoop_cons_success errors rest fs hc hne hs hrs
                  (fun l0 hl0 => by cases hl0), Prod.mk.injEq] at h
              exact absurd h.1 (by simp)

/-- C3: a download call that observes the shared cancellation flag (before
a mirror attempt or between chunks mid-stream) removes the `.part`
temporary file, creates no destination file, and returns the reserved
cancellation error.  Conjunct 1: whenever the call returns the cancellation
error, the `.part` file is gone and no destination file was created.
Conjuncts 2 and 3: observing the flag before a mirror attempt,
respectively between chunks, yields exactly that cancellation result. -/
theorem C3_cancelled_download_cleanup (net : String → MirrorResp)
    (lat : String → Option Nat) (cancel : Nat → Bool)
    (hclean : netClean net) :
    (∀ (urls : List String) (fs fs' : DlFs) (out : Except String Unit),
      fs.dest = false →
      download_to_file net lat cancel urls fs = (out, fs') →
      out = .error "Download cancelled" → fs'.tmp = false ∧ fs'.dest = false) ∧
    (∀ (k : Nat) (errors : List String) (url : String) (rest : List String)
        (fs : DlFs), cancel k = true →
      dlLoop net cancel k errors (url :: rest) fs =
        (.error "Download cancelled", { fs with tmp := false })) ∧
    (∀ (k : Nat) (errors : List String) (url : String) (rest : List String)
        (fs : DlFs) (status : Nat) (len : Option Nat)
        (chunks : List (Except String Nat)) (j : Nat),
      cancel k = false → net url = .resp status len chunks →
      httpSuccess status = true →
      runStream cancel (k+1) 0 chunks = .cancelled j →
      dlLoop net cancel k errors (url :: rest) fs =
        (.error "Download cancelled", { fs with tmp := false })) := by
  refine ⟨?_, ?_, ?_⟩
  · intro urls fs fs' out hdest h hout
    rw [hout] at h
    have := dlLoop_cancelled_clean hclean _ _ _ _ _ h
    exact ⟨this.1, hdest ▸ this.2⟩
  · intro k errors url rest fs hc
    exact dlLoop_cons_cancel net errors url rest fs hc
  · intro k errors url rest fs status len chunks j hc hne hs hrs
    exact dlLoop_cons_streamCancel errors rest fs hc hne hs hrs

/-- Network oracle for the cancellation witness: a single mirror that
responds successfully and streams two chunks. -/
def c3net : String → MirrorResp := fun _ => .resp 200 none [.ok 5, .ok 5]

/-- Witness for C3: one mirror, no probe responses.  With the flag raised
after the first chunk poll the download is cancelled mid-stream, ending
with a clean filesystem (conjuncts 1 and 3 of the theorem); with the flag
set from the start the mirror attempt itself is aborted (conjunct 2). -/
theorem C3_cancelled_download_cleanup_witness :
    ((download_to_file c3net (fun _ => none) (fun k => k == 1) ["u"]
        ⟨false, false⟩).2.tmp = false ∧
      (download_to_file c3net (fun _ => none) (fun k => k == 1) ["u"]
        ⟨false, false⟩).2.dest = false) ∧
    dlLoop c3net (fun _ => true) 0 [] ["u"] ⟨true, false⟩ =
      (.error "Download cancelled", ⟨false, false⟩) ∧
    dlLoop c3net (fun k => k == 1) 0 [] ["u"] ⟨false, false⟩ =
      (.error "Download cancelled", ⟨false, false⟩) := by
  have hclean : netClean c3net := by
    intro url status len chunks h e he
    cases h
    simp at he
  refine ⟨?_, ?_, ?_⟩
  · exact (C3_cancelled_download_cleanup c3net (fun _ => none)
      (fun k => k == 1) hclean).1 ["u"] ⟨false, false⟩
      (download_to_file c3net (fun _ => none) (fun k => k == 1) ["u"]
        ⟨false, false⟩).2
      (.error "Download cancelled") rfl (by decide) rfl
  · exact (C3_cancelled_download_cleanup c3net (fun _ => none)
      (fun _ => true) hclean).2.1 0 [] "u" [] ⟨true, false⟩ rfl
  · exact (C3_cancelled_download_cleanup c3net (fun _ => none)
      (fun k => k == 1) hclean).2.2 0 [] "u" [] ⟨false, false⟩ 200 none
      [.ok 5, .ok 5] 2 rfl rfl rfl (by decide)

/-- Sum of the chunk byte counts when the stream completes without a
transport error; `none` when some chunk errors mid-stream. -/
def streamOkSum : List (Except String Nat) → Option Nat
  | [] => some 0
  | .ok n :: r => (streamOkSum r).map (fun w => n + w)
  | .error _ :: _ => none

/-- A mirror that fully succeeds for `download_to_file`: the send works, a
2xx status arrives, the stream completes without error, and the byte count
matches the declared Content-Length when one is declared. -/
def mirrorFullyOk (net : String → MirrorResp) (u : String) : Prop :=
  match net u with
  | .sendErr _ => False
  | .resp status len chunks =>
    httpSuccess status = true ∧
    (∃ w, streamOkSum chunks = some w ∧ ∀ l, len = some l → w = l)

/-- The failure string a mirror contributes when it fails in one of the
fall-through ways of the loop (send error, non-success status, or declared
length mismatch); `none` when the mirror succeeds or errors mid-stream. -/
def benignFailMsg (net : String → MirrorResp) (u : String) : Option String :=
  match net u with
  | .sendErr e => some (u ++ " -> " ++ e)
  | .resp status len chunks =>
    if httpSuccess status = false then
      some (u ++ " -> HTTP " ++ toString status)
    else
      match streamOkSum chunks with
      | none => none
      | some w =>
        match len with
        | some l =>
          if w ≠ l then
            some (u ++ " -> incomplete download (" ++ toString w ++ "/" ++
              toString l ++ ")")
          else none
        | none => none

/-- Final error message of the mirror loop from the collected failures
(lines 656-660). -/
def dlFailText (errors : List String) : String :=
  if errors.isEmpty then "download failed"
  else "download failed: " ++ String.intercalate "; " errors

lemma runStream_const_false :
    ∀ {chunks : List (Except String Nat)} {w : Nat} (k w0 : Nat),
      streamOkSum chunks = some w →
      runStream (fun _ => false) k w0 chunks =
        .done (w0 + w) (k + chunks.length) := by
  intro chunks
  induction chunks with
  | nil =>
    intro w k w0 h
    simp only [streamOkSum, Option.some.injEq] at h
    rw [← h]
    rfl
  | cons item rest ih =>
    intro w k w0 h
    match item with
    | .error e => simp [streamOkSum] at h
    | .ok n =>
      simp only [streamOkSum, Option.map_eq_some'] at h
      obtain ⟨w', hw', hsum⟩ := h
      rw [runStream.eq_def]
      dsimp only
      rw [ih (k+1) (w0+n) hw']
      have h1 : w0 + n + w' = w0 + w := by omega
      have h2 : k + 1 + rest.length = k + (item :: rest).length := by
        simp [List.length_cons]
        omega
      rw [h1, h2]
      rfl

/-- When every mirror of the list fails in a fall-through way, the loop
collects every failure reason in order and ends with the concatenated error
and no temporary file. -/
lemma dlLoop_benign (net : String → MirrorResp) :
    ∀ (urls : List String) (k : Nat) (errors : List String) (fs : DlFs),
      (∀ u ∈ urls, (benignFailMsg net u).isSome = true) →
      dlLoop net (fun _ => false) k errors urls fs =
        (.error (dlFailText (errors ++ urls.filterMap (benignFailMsg net))),
         { fs with tmp := false }) := by
  intro urls
  induction urls with
  | nil =>
    intro k errors fs _
    rw [dlLoop_nil, List.filterMap_nil, List.append_nil, dlFailText]
  | cons u rest ih =>
    intro k errors fs hall
    have hu := hall u (List.mem_cons_self _ _)
    have hrest : ∀ x ∈ rest, (benignFailMsg net x).isSome = true :=
      fun x hx => hall x (List.mem_cons_of_mem _ hx)
    match hbm : benignFailMsg net u with
    | none => rw [hbm] at hu; exact absurd hu (by simp)
    | some msg =>
      have hfm : (u :: rest).filterMap (benignFailMsg net) =
          msg :: rest.filterMap (benignFailMsg net) := by
        rw [List.filterMap_cons, hbm]
      match hne : net u with
      | .sendErr e =>
        have hmsg : msg = u ++ " -> " ++ e := by
          rw [benignFailMsg, hne] at hbm
          exact (Option.some.inj hbm).symm
        rw [dlLoop_cons_sendErr errors rest fs rfl hne, ih _ _ _ hrest,
          hfm, hmsg, List.append_assoc]
        rfl
      | .resp status len chunks =>
        by_cases hs : httpSuccess status = false
        · have hmsg : msg = u ++ " -> HTTP " ++ toString status := by
            rw [benignFailMsg, hne] at hbm
            dsimp only at hbm
            rw [if_pos hs] at hbm
            exact (Option.some.inj hbm).symm
          rw [dlLoop_cons_httpFail errors rest fs rfl hne hs, ih _ _ _ hrest,
            hfm, hmsg, List.append_assoc]
          rfl
        · replace hs : httpSuccess status = true := by
            cases hsv : httpSuccess status
            · exact absurd hsv hs
            · rfl
          rw [benignFailMsg, hne] at hbm
          dsimp only at hbm
          rw [if_neg (by rw [hs]; exact fun hx => Bool.noConfusion hx)] at hbm
          match hsum : streamOkSum chunks with
          | none => rw [hsum] at hbm; exact absurd hbm (by simp)
          | some w =>
            rw [hsum] at hbm
            have hrs := runStream_const_false (k+1) 0 hsum
            rw [Nat.zero_add] at hrs
            match len, hne, hbm with
            | some l, hne, hbm =>
              by_cases hw : w ≠ l
              · have hmsg : msg = u ++ " -> incomplete download (" ++
                    toString w ++ "/" ++ toString l ++ ")" := by
                  dsimp only at hbm
                  rw [if_pos hw] at hbm
                  exact (Option.some.inj hbm).symm
                rw [dlLoop_cons_mismatch errors rest fs rfl hne hs hrs hw,
                  ih _ _ _ hrest, hfm, hmsg, List.append_assoc]
                rfl
              · dsimp only at hbm
                rw [if_neg hw] at hbm
                exact absurd hbm (by simp)
            | none, hne, hbm =>
              dsimp only at hbm
              exact absurd hbm (by simp)

/-- Claim proposition for C2 at one concrete call (the general claim is its
universal closure): with no cancellation, the temporary `.part` file never
survives the call, and if some mirror of the list can fully succeed then
the call succeeds (fall-through past transport errors, including errors
while streaming the response body). -/
def C2ClaimAt (net : String → MirrorResp) (lat : String → Option Nat)
    (urls : List String) : Prop :=
  ∀ out fs',
    download_to_file net lat (fun _ => false) urls ⟨false, false⟩ =
      (out, fs') →
    fs'.tmp = false ∧
    ((∃ u ∈ urls, mirrorFullyOk net u) → out = Except.ok ())

/-- Network oracle for the C2 counterexample: the first mirror sends a 2xx
response whose body stream dies mid-transfer; the second mirror would fully
succeed. -/
def c2net : String → MirrorResp := fun u =>
  if u = "u1" then .resp 200 none [.error "connection reset by peer"]
  else .resp 200 (some 1) [.ok 1]

/-- C2 counterexample: with mirrors `["u1", "u2"]` where `u1` errors while
streaming the body and `u2` would fully succeed, the call aborts
immediately with the stream error — the second mirror is never attempted
and the partial `.part` file survives — contradicting the claim that a
streaming transport error discards the partial file and falls through to
the next mirror. -/
theorem C2_counterexample :
    ¬ C2ClaimAt c2net (fun _ => none) ["u1", "u2"] := by
  intro h
  obtain ⟨h1, _⟩ :=
    h (.error "connection reset by peer") ⟨true, false⟩ (by decide)
  exact absurd h1 (by decide)

/-- C2 (amended): a send failure, a non-success HTTP status, and a
declared-length mismatch each fall through to the next mirror (the
mismatch also discards the `.part` file), and when every mirror fails in
one of these ways the surfaced error concatenates each mirror's failure
reason and the `.part` file is removed; but an error while streaming the
response body aborts the whole call immediately with that error, leaving
the `.part` file in place and skipping the remaining mirrors. -/
theorem C2_mirror_fallthrough_amended (net : String → MirrorResp)
    (lat : String → Option Nat) :
    (∀ (cancel : Nat → Bool) (k : Nat) (errors : List String) (url : String)
        (rest : List String) (fs : DlFs) (status : Nat) (len : Option Nat)
        (chunks : List (Except String Nat)) (e : String) (j : Nat),
      cancel k = false → net url = .resp status len chunks →
      httpSuccess status = true →
      runStream cancel (k+1) 0 chunks = .failed e j →
      dlLoop net cancel k errors (url :: rest) fs =
        (.error e, { fs with tmp := true })) ∧
    (∀ (urls : List String) (fs : DlFs),
      (∀ u ∈ orderedUrls lat urls, (benignFailMsg net u).isSome = true) →
      download_to_file net lat (fun _ => false) urls fs =
        (.error (dlFailText
          ((orderedUrls lat urls).filterMap (benignFailMsg net))),
         { fs with tmp := false })) := by
  constructor
  · intro cancel k errors url rest fs status len chunks e j hc hne hs hrs
    exact dlLoop_cons_streamFail errors rest fs hc hne hs hrs
  · intro urls fs hall
    exact dlLoop_benign net (orderedUrls lat urls) 0 [] fs hall

/-- Network oracle for the C2 amended-theorem witness: one mirror whose
send fails, one that answers 404, and one whose body stream errors. -/
def c2wnet : String → MirrorResp := fun u =>
  if u = "a" then .sendErr "boom"
  else if u = "s" then .resp 200 none [.error "oops"]
  else .resp 404 none []

/-- Witness for the amended C2 theorem: the stream-error mirror aborts the
loop leaving the `.part` file, and a list of two benignly failing mirrors
yields the concatenated error with the `.part` file removed. -/
theorem C2_mirror_fallthrough_amended_witness :
    dlLoop c2wnet (fun _ => false) 0 [] ["s"] ⟨false, false⟩ =
      (.error "oops", ⟨true, false⟩) ∧
    download_to_file c2wnet (fun _ => none) (fun _ => false) ["a", "b"]
        ⟨false, false⟩ =
      (.error "download failed: a -> boom; b -> HTTP 404",
       ⟨false, false⟩) := by
  constructor
  · exact (C2_mirror_fallthrough_amended c2wnet (fun _ => none)).1
      (fun _ => false) 0 [] "s" [] ⟨false, false⟩ 200 none [.error "oops"]
      "oops" 2 rfl (by decide) rfl (by decide)
  · have h := (C2_mirror_fallthrough_amended c2wnet (fun _ => none)).2
      ["a", "b"] ⟨false, false⟩ (by decide)
    exact h.trans (by decide)

/-! ### C7: mirror ordering -/

lemma probeTasksAux_spec :
    ∀ (l seen : List String) (i : Nat) (x : Nat × String),
      x ∈ probeTasksAux seen i l →
      ∃ j, x.1 = i + j ∧ l[j]? = some x.2 ∧ x.2 ≠ "" := by
  intro l
  induction l with
  | nil => intro seen i x h; simp [probeTasksAux] at h
  | cons u rest ih =>
    intro seen i x h
    rw [probeTasksAux.eq_def] at h
    dsimp only at h
    by_cases hu : u = ""
    · rw [if_pos hu] at h
      obtain ⟨j, h1, h2, h3⟩ := ih _ _ _ h
      exact ⟨j + 1, by omega, by simpa using h2, h3⟩
    · rw [if_neg hu] at h
      by_cases hseen : u ∈ seen
      · rw [if_pos hseen] at h
        obtain ⟨j, h1, h2, h3⟩ := ih _ _ _ h
        exact ⟨j + 1, by omega, by simpa using h2, h3⟩
      · rw [if_neg hseen] at h
        rcases List.mem_cons.mp h with heq | hmem
        · subst heq
          refine ⟨0, by simp, by simp, hu⟩
        · obtain ⟨j, h1, h2, h3⟩ := ih _ _ _ hmem
          exact ⟨j + 1, by omega, by simpa using h2, h3⟩

lemma insertByLat_perm {α : Type} (key : α → Nat) (x : α) :
    ∀ l : List α, List.Perm (insertByLat key x l) (x :: l) := by
  intro l
  induction l with
  | nil => exact List.Perm.refl _
  | cons y ys ih =>
    rw [insertByLat]
    by_cases hlt : key x < key y
    · rw [if_pos hlt]
    · rw [if_neg hlt]
      exact (List.Perm.cons y ih).trans (List.Perm.swap x y ys)

lemma sortByLat_perm_aux {α : Type} (key : α → Nat) :
    ∀ (l acc : List α),
      List.Perm (l.foldl (fun acc x => insertByLat key x acc) acc)
        (l ++ acc) := by
  intro l
  induction l with
  | nil => intro acc; exact List.Perm.refl _
  | cons x xs ih =>
    intro acc
    rw [List.foldl_cons]
    refine (ih _).trans ?_
    refine (List.Perm.append_left xs (insertByLat_perm key x acc)).trans ?_
    exact List.perm_middle

lemma sortByLat_perm {α : Type} (key : α → Nat) (l : List α) :
    List.Perm (sortByLat key l) l := by
  have h := sortByLat_perm_aux key l []
  rw [List.append_nil] at h
  exact h

lemma insertByLat_head {α : Type} (key : α → Nat) (x : α) (l : List α) :
    (insertByLat key x l).head? = some x ∨
      (insertByLat key x l).head? = l.head? := by
  cases l with
  | nil => left; rfl
  | cons y ys =>
    rw [insertByLat]
    by_cases hlt : key x < key y
    · rw [if_pos hlt]; left; rfl
    · rw [if_neg hlt]; right; rfl

lemma insertByLat_chain {α : Type} (key : α → Nat) (x : α) :
    ∀ l : List α, List.Chain' (fun a b => key a ≤ key b) l →
      List.Chain' (fun a b => key a ≤ key b) (insertByLat key x l) := by
  intro l
  induction l with
  | nil => intro _; simp [insertByLat]
  | cons y ys ih =>
    intro h
    rw [insertByLat]
    by_cases hlt : key x < key y
    · rw [if_pos hlt]
      exact List.Chain'.cons (le_of_lt hlt) h
    · rw [if_neg hlt]
      rw [List.chain'_cons'] at h ⊢
      refine ⟨?_, ih h.2⟩
      intro z hz
      rcases insertByLat_head key x ys with hh | hh
      · rw [hh] at hz
        cases hz
        exact le_of_not_lt hlt
      · rw [hh] at hz
        exact h.1 z hz

lemma sortByLat_chain_aux {α : Type} (key : α → Nat) :
    ∀ (l acc : List α), List.Chain' (fun a b => key a ≤ key b) acc →
      List.Chain' (fun a b => key a ≤ key b)
        (l.foldl (fun acc x => insertByLat key x acc) acc) := by
  intro l
  induction l with
  | nil => intro acc h; exact h
  | cons x xs ih =>
    intro acc h
    rw [List.foldl_cons]
    exact ih _ (insertByLat_chain key x acc h)

lemma sortByLat_chain {α : Type} (key : α → Nat) (l : List α) :
    List.Chain' (fun a b => key a ≤ key b) (sortByLat key l) :=
  sortByLat_chain_aux key l [] List.chain'_nil

lemma map_fst_filterMap_of_snd {f : Nat → Option Nat} :
    ∀ l : List (Nat × Nat), (∀ p ∈ l, f p.1 = some p.2) →
      (l.map Prod.fst).filterMap f = l.map Prod.snd := by
  intro l
  induction l with
  | nil => intro _; rfl
  | cons p rest ih =>
    intro h
    rw [List.map_cons, List.filterMap_cons, h p (List.mem_cons_self _ _),
      List.map_cons, ih (fun q hq => h q (List.mem_cons_of_mem _ hq))]

lemma enumL_mem {α : Type} :
    ∀ (l : List α) (i : Nat) (x : Nat × α), x ∈ enumL i l →
      x.1 = i + (x.1 - i) ∧ l[x.1 - i]? = some x.2 := by
  intro l
  induction l with
  | nil => intro i x h; simp [enumL] at h
  | cons a rest ih =>
    intro i x h
    rw [enumL] at h
    rcases List.mem_cons.mp h with heq | hmem
    · rw [heq]
      simp
    · obtain ⟨h1, h2⟩ := ih (i+1) x hmem
      have hge : i + 1 ≤ x.1 := by omega
      refine ⟨by omega, ?_⟩
      have : x.1 - i = (x.1 - (i+1)) + 1 := by omega
      rw [this]
      simpa using h2

/-- The probe-result entries, before sorting. -/
def probeResults (lat : String → Option Nat) (urls : List String) :
    List (Nat × Nat) :=
  (probeTasksAux [] 0 urls).filterMap
    (fun iu => (lat iu.2).map (fun d => (iu.1, d)))

lemma probeResults_spec {lat : String → Option Nat} {urls : List String}
    {p : Nat × Nat} (h : p ∈ probeResults lat urls) :
    ∃ u, urls[p.1]? = some u ∧ u ≠ "" ∧ lat u = some p.2 := by
  rw [probeResults, List.mem_filterMap] at h
  obtain ⟨iu, hiu, hmap⟩ := h
  rw [Option.map_eq_some'] at hmap
  obtain ⟨d, hd, hpd⟩ := hmap
  obtain ⟨j, h1, h2, h3⟩ := probeTasksAux_spec urls [] 0 iu hiu
  have hj : j = iu.1 := by omega
  subst hj
  rw [← hpd]
  exact ⟨iu.2, h2, h3, hd⟩

lemma probe_eq_results_map (lat : String → Option Nat) (urls : List String) :
    probe_fastest_mirror lat urls =
      (sortByLat (fun r => r.2) (probeResults lat urls)).map Prod.fst := rfl

/-- Modelled from the claim wording (refinement target, deliberately not
from the source): responding mirrors first, sorted by round-trip latency
ascending, then the non-responding non-empty URLs. -/
def specOrderClaim (lat : String → Option Nat) (urls : List String) :
    List String :=
  let tasks := probeTasksAux [] 0 urls
  let responders :=
    tasks.filterMap (fun iu => (lat iu.2).map (fun d => (iu.2, d)))
  if responders.isEmpty then urls
  else
    (sortByLat (fun r => r.2) responders).map (fun r => r.1) ++
      urls.filter (fun u => u ≠ "" && (lat u).isNone)

/-- Latency oracle for the C7 counterexample: mirror `b` responds in 5 ms,
everything else fails. -/
def c7lat : String → Option Nat := fun u => if u = "b" then some 5 else none

/-- C7 counterexample: on the duplicate-containing list `["a", "b", "b"]`
(the built-in catalog repeats its HuggingFace mirror the same way) with
only `b` responding, the code produces `["b", "a", "b"]` — the duplicate
position of the responding mirror `b` is appended to the fallback tail —
while the claim describes `["b", "a"]` (responders sorted, then the
non-responding non-empty URLs). -/
theorem C7_counterexample :
    orderedUrls c7lat ["a", "b", "b"] ≠ specOrderClaim c7lat ["a", "b", "b"] := by
  decide

/-- C7 (amended): if every probe fails, the original declared order is
preserved unchanged; otherwise the probe-selected positions come first with
round-trip latencies ascending, every probe-selected position holds a
non-empty responding URL, every non-empty URL at a position the probe did
not select is still attempted afterwards (this tail holds the
non-responding URLs plus any duplicate positions of responding ones), and
no URL outside the declared list is ever attempted. -/
theorem C7_mirror_order_amended (lat : String → Option Nat)
    (urls : List String) :
    ((∀ u ∈ urls, u ≠ "" → lat u = none) → orderedUrls lat urls = urls) ∧
    List.Chain' (· ≤ ·)
      ((probe_fastest_mirror lat urls).filterMap
        (fun i => (urls[i]?).bind lat)) ∧
    (∀ i ∈ probe_fastest_mirror lat urls,
      ∃ u, urls[i]? = some u ∧ u ≠ "" ∧ (lat u).isSome = true) ∧
    (∀ iu ∈ enumL 0 urls, iu.2 ≠ "" →
      iu.1 ∉ probe_fastest_mirror lat urls →
      iu.2 ∈ orderedUrls lat urls) ∧
    (∀ u ∈ orderedUrls lat urls, u ∈ urls) := by
  have hresmem : ∀ p ∈ sortByLat (fun r => r.2) (probeResults lat urls),
      ∃ u, urls[p.1]? = some u ∧ u ≠ "" ∧ lat u = some p.2 := by
    intro p hp
    exact probeResults_spec
      ((sortByLat_perm (fun r => r.2) (probeResults lat urls)).mem_iff.mp hp)
  refine ⟨?_, ?_, ?_, ?_, ?_⟩
  · intro hfail
    have hres : probeResults lat urls = [] := by
      rw [probeResults, List.filterMap_eq_nil_iff]
      intro iu hiu
      obtain ⟨j, _, h2, h3⟩ := probeTasksAux_spec urls [] 0 iu hiu
      rw [hfail iu.2 (List.getElem?_mem h2) h3]
      rfl
    rw [orderedUrls]
    rw [show probe_fastest_mirror lat urls = [] from by
      rw [probe_eq_results_map, hres]; rfl]
    rfl
  · rw [probe_eq_results_map,
      map_fst_filterMap_of_snd _ (fun p hp => by
        obtain ⟨u, h1, _, h3⟩ := hresmem p hp
        rw [h1]
        exact h3)]
    have hchain := sortByLat_chain (fun r : Nat × Nat => r.2)
      (probeResults lat urls)
    rw [List.chain'_map]
    exact hchain
  · intro i hi
    rw [probe_eq_results_map, List.mem_map] at hi
    obtain ⟨p, hp, hpi⟩ := hi
    obtain ⟨u, h1, h2, h3⟩ := hresmem p hp
    exact ⟨u, hpi ▸ h1, h2, by rw [h3]; rfl⟩
  · intro iu hiu hne hnotin
    rw [orderedUrls]
    by_cases hord : (probe_fastest_mirror lat urls).isEmpty = true
    · rw [if_pos hord]
      obtain ⟨_, h2⟩ := enumL_mem urls 0 iu hiu
      exact List.getElem?_mem h2
    · rw [if_neg hord]
      refine List.mem_append_right _ ?_
      rw [List.mem_filterMap]
      exact ⟨iu, hiu, by rw [if_pos ⟨hne, hnotin⟩]⟩
  · intro u hu
    rw [orderedUrls] at hu
    by_cases hord : (probe_fastest_mirror lat urls).isEmpty = true
    · rw [if_pos hord] at hu
      exact hu
    · rw [if_neg hord] at hu
      rcases List.mem_append.mp hu with hl | hr
      · rw [List.mem_filterMap] at hl
        obtain ⟨i, _, hi⟩ := hl
        exact List.getElem?_mem hi
      · rw [List.mem_filterMap] at hr
        obtain ⟨iu, hiu, hcond⟩ := hr
        by_cases hc : iu.2 ≠ "" ∧ iu.1 ∉ probe_fastest_mirror lat urls
        · rw [if_pos hc, Option.some.injEq] at hcond
          obtain ⟨_, h2⟩ := enumL_mem urls 0 iu hiu
          rw [← hcond]
          exact List.getElem?_mem h2
        · rw [if_neg hc] at hcond
          exact absurd hcond (by simp)

/-- Witness for the amended C7 theorem: with all probes failing the
two-URL list is attempted in declared order, and on the counterexample
input the duplicate position of the responding mirror is still attempted. -/
theorem C7_mirror_order_amended_witness :
    orderedUrls (fun _ => none) ["x", "y"] = ["x", "y"] ∧
    "b" ∈ orderedUrls c7lat ["a", "b", "b"] := by
  constructor
  · exact (C7_mirror_order_amended (fun _ => none) ["x", "y"]).1
      (fun _ _ _ => rfl)
  · exact (C7_mirror_order_amended c7lat ["a", "b", "b"]).2.2.2.1 (2, "b")
      (by decide) (by decide) (by decide)

/-! ## Zip extraction path guard
(builtin_llm.rs, safe_zip_extract_with_progress lines 703-725) -/

/-- Rust `PathBuf` / `Path`, modelled as its list of components. -/
abbrev RPath := List String

/-- Substring test on character lists (Rust `str::contains` for a literal
pattern). -/
def hasSub : List Char → List Char → Bool
  | [], pat => pat.isEmpty
  | c :: t, pat => pat.isPrefixOf (c :: t) || hasSub t pat

/-- Entry-name normalization of the zip extractor:
`entry.name().replace('\\', "/")` (line 706). -/
def zipEntryNorm (name : String) : List Char :=
  name.data.map (fun c => if c = '\\' then '/' else c)

/-- Rust `str::starts_with('/')` (line 708). -/
def startsWithSlash : List Char → Bool
  | '/' :: _ => true
  | _ => false

/-- Split a normalized entry name at `/` into components. -/
def splitSlashAux (cur : List Char) : List Char → List String
  | [] => [String.mk cur.reverse]
  | c :: rest =>
    if c = '/' then String.mk cur.reverse :: splitSlashAux [] rest
    else splitSlashAux (c :: cur) rest

/-- Components of a normalized entry name. -/
def splitSlash (l : List Char) : List String := splitSlashAux [] l

/-- One archive entry as seen by the extraction loop. -/
structure ZipEntry where
  name : String
  isDir : Bool

/-- Whether a normalized entry name begins with a Windows drive prefix
(an ASCII letter followed by `:`, as in `C:/evil` or `C:evil`). -/
def hasDrivePrefix : List Char → Bool
  | c :: d :: _ => c.isAlpha && d == ':'
  | _ => false

/-- Rust `dest_dir.join(&name)` (line 715) on a guard-passing name.  A
relative name appends its component sequence (empty components
collapsing).  On Windows — the platform whose runtimes ship as `.zip` —
a name carrying a drive prefix (`C:/evil` is absolute; `C:evil` has a
prefix but no root) makes `PathBuf::push` replace the joined path
entirely, so the resulting path is the name's own components, outside
`dest`.  (A rooted prefix-free name such as `/evil` would also replace
everything below the prefix, but the extractor's leading-`/` guard has
already rejected those before `join` runs.) -/
def zipJoin (dest : RPath) (n : List Char) : RPath :=
  if hasDrivePrefix n then (splitSlash n).filter (fun c => c ≠ "")
  else dest ++ (splitSlash n).filter (fun c => c ≠ "")

/-- The paths written (as files or created directories) by
`safe_zip_extract_with_progress`: entries whose normalized name starts
with `/` or contains `..` are skipped (lines 708-713); the rest are
written at `dest_dir.join(&name)` (line 715). -/
def zipWrittenPaths (dest : RPath) (entries : List ZipEntry) : List RPath :=
  entries.filterMap fun e =>
    let n := zipEntryNorm e.name
    if startsWithSlash n then none
    else if hasSub n ['.', '.'] then none
    else some (zipJoin dest n)

/-- Lexical path normalization: `..` pops the preceding component. -/
def normPathAux (acc : List String) : List String → List String
  | [] => acc.reverse
  | c :: rest =>
    if c = ".." then normPathAux (acc.drop 1) rest
    else normPathAux (c :: acc) rest

/-- Normalize a component path by resolving `..` lexically. -/
def normPath (p : List String) : List String := normPathAux [] p

lemma normPathAux_no_dotdot :
    ∀ (l : List String) (acc : List String), (∀ c ∈ l, c ≠ "..") →
      normPathAux acc l = acc.reverse ++ l := by
  intro l
  induction l with
  | nil => intro acc _; simp [normPathAux]
  | cons c rest ih =>
    intro acc h
    rw [normPathAux, if_neg (h c (List.mem_cons_self _ _)),
      ih (c :: acc) (fun x hx => h x (List.mem_cons_of_mem _ hx))]
    simp

lemma normPath_no_dotdot {p : List String} (h : ∀ c ∈ p, c ≠ "..") :
    normPath p = p := by
  rw [normPath, normPathAux_no_dotdot p [] h]
  rfl

lemma splitSlashAux_decomp :
    ∀ (l cur : List Char) (s : String), s ∈ splitSlashAux cur l →
      ∃ pre post, cur.reverse ++ l = pre ++ s.data ++ post := by
  intro l
  induction l with
  | nil =>
    intro cur s h
    rw [splitSlashAux] at h
    rcases List.mem_singleton.mp h with heq
    refine ⟨[], [], ?_⟩
    rw [heq]
    simp
  | cons c rest ih =>
    intro cur s h
    rw [splitSlashAux] at h
    by_cases hc : c = '/'
    · rw [if_pos hc] at h
      rcases List.mem_cons.mp h with heq | hmem
      · refine ⟨[], c :: rest, ?_⟩
        rw [heq]
        simp
      · obtain ⟨pre, post, hdec⟩ := ih [] s hmem
        refine ⟨cur.reverse ++ [c] ++ pre, post, ?_⟩
        simp only [List.reverse_nil, List.nil_append] at hdec
        rw [show cur.reverse ++ c :: rest = (cur.reverse ++ [c]) ++ rest from
          by simp, hdec]
        simp
    · rw [if_neg hc] at h
      obtain ⟨pre, post, hdec⟩ := ih (c :: cur) s h
      refine ⟨pre, post, ?_⟩
      rw [show cur.reverse ++ c :: rest = (c :: cur).reverse ++ rest from
        by simp, hdec]

lemma hasSub_nil_pat : ∀ l : List Char, hasSub l [] = true := by
  intro l
  cases l <;> rfl

lemma hasSub_of_decomp :
    ∀ (pre pat post : List Char), hasSub (pre ++ pat ++ post) pat = true := by
  intro pre
  induction pre with
  | nil =>
    intro pat post
    cases pat with
    | nil => exact hasSub_nil_pat _
    | cons p ps =>
      rw [List.nil_append, List.cons_append, hasSub]
      have hp : (p :: ps).isPrefixOf (p :: (ps ++ post)) = true := by
        rw [List.isPrefixOf_iff_prefix]
        exact List.prefix_append _ _
      rw [hp]
      rfl
  | cons c pre ih =>
    intro pat post
    rw [List.cons_append, List.cons_append, hasSub, ih pat post]
    simp

/-- C5 counterexample: the entry `C:\evil.dll` normalizes to `C:/evil.dll`
— an absolute (drive-prefixed) Windows path — yet passes both guards (no
leading `/`, no `..`), is written, and `PathBuf::join` replaces the
destination, so the written path `C:/evil.dll` does not lie inside the
destination directory.  This refutes the claim that every entry whose
normalized name is an absolute path is rejected and that everything
written lies inside the destination. -/
theorem C5_counterexample :
    zipWrittenPaths ["D:", "llm", "runtime"] [⟨"C:\\evil.dll", false⟩] =
      [["C:", "evil.dll"]] ∧
    ¬ (["D:", "llm", "runtime"] : RPath) <+: normPath ["C:", "evil.dll"] := by
  constructor
  · rfl
  · decide

/-- C5 (amended): every entry whose normalized name starts with `/` or
contains `..` is rejected — it contributes no write — and every path the
extractor writes for an accepted entry whose name carries no Windows
drive prefix is `dest ++ components` with no `..` component, so its
lexical normalization still extends the destination directory.  (An
accepted drive-prefixed name replaces the destination on Windows and
lands outside it, as the counterexample shows.) -/
theorem C5_zip_extract_inside_dest_amended (dest : RPath)
    (hdest : ∀ c ∈ dest, c ≠ "..") :
    (∀ (entries : List ZipEntry),
      (∀ e ∈ entries, hasDrivePrefix (zipEntryNorm e.name) = false) →
      ∀ p ∈ zipWrittenPaths dest entries, normPath p = p ∧ dest <+: p) ∧
    (∀ (e : ZipEntry) (entries : List ZipEntry),
      startsWithSlash (zipEntryNorm e.name) = true ∨
        hasSub (zipEntryNorm e.name) ['.', '.'] = true →
      zipWrittenPaths dest (e :: entries) = zipWrittenPaths dest entries) := by
  constructor
  · intro entries hnd p hp
    rw [zipWrittenPaths, List.mem_filterMap] at hp
    obtain ⟨e, hemem, he⟩ := hp
    dsimp only at he
    by_cases h1 : startsWithSlash (zipEntryNorm e.name) = true
    · rw [if_pos h1] at he
      exact absurd he (by simp)
    · rw [if_neg h1] at he
      by_cases h2 : hasSub (zipEntryNorm e.name) ['.', '.'] = true
      · rw [if_pos h2] at he
        exact absurd he (by simp)
      · rw [if_neg h2, Option.some.injEq, zipJoin,
          if_neg (by rw [hnd e hemem]; exact Bool.false_ne_true)] at he
        have hcomp : ∀ c ∈ (splitSlash (zipEntryNorm e.name)).filter
            (fun c => c ≠ ""), c ≠ ".." := by
          intro c hc hdd
          have hc0 : c ∈ splitSlash (zipEntryNorm e.name) :=
            List.mem_of_mem_filter hc
          obtain ⟨pre, post, hdec⟩ :=
            splitSlashAux_decomp (zipEntryNorm e.name) [] c hc0
          simp only [List.reverse_nil, List.nil_append] at hdec
          rw [hdd] at hdec
          exact h2 (hdec ▸ hasSub_of_decomp pre ['.', '.'] post)
        have hall : ∀ c ∈ dest ++ (splitSlash (zipEntryNorm e.name)).filter
            (fun c => c ≠ ""), c ≠ ".." := by
          intro c hc
          rcases List.mem_append.mp hc with hd | ht
          · exact hdest c hd
          · exact hcomp c ht
        rw [← he]
        exact ⟨normPath_no_dotdot hall, List.prefix_append _ _⟩
  · intro e entries hbad
    rw [zipWrittenPaths, zipWrittenPaths, List.filterMap_cons]
    rcases hbad with h1 | h2
    · rw [if_pos h1]
    · dsimp only
      by_cases h1 : startsWithSlash (zipEntryNorm e.name) = true
      · rw [if_pos h1]
      · rw [if_neg h1, if_pos h2]

/-- Witness for the amended C5 on a concrete archive: with destination
`["llm", "runtime"]`, the drive-prefix-free entry `bin/llama-server` is
written inside the destination, while `../evil` (contains `..`) and
`/etc/passwd` (absolute) are rejected and write nothing. -/
theorem C5_zip_extract_inside_dest_amended_witness :
    (normPath (["llm", "runtime"] ++ ["bin", "llama-server"]) =
        ["llm", "runtime"] ++ ["bin", "llama-server"] ∧
      ["llm", "runtime"] <+: (["llm", "runtime"] ++ ["bin", "llama-server"])) ∧
    zipWrittenPaths ["llm", "runtime"]
        [⟨"../evil", false⟩, ⟨"/etc/passwd", false⟩] = [] := by
  constructor
  · exact (C5_zip_extract_inside_dest_amended ["llm", "runtime"]
      (by decide)).1 [⟨"bin/llama-server", false⟩] (by decide) _ (by decide)
  · rw [(C5_zip_extract_inside_dest_amended ["llm", "runtime"]
      (by decide)).2 ⟨"../evil", false⟩ [⟨"/etc/passwd", false⟩]
      (by right; decide),
      (C5_zip_extract_inside_dest_amended ["llm", "runtime"]
      (by decide)).2 ⟨"/etc/passwd", false⟩ [] (by left; decide)]
    rfl

/-! ## Model file signature check
(builtin_llm.rs, file_starts_with lines 663-674 and its two call sites:
ensure_model_with_mode lines 1270-1274, builtin_llm_import_model lines
2481-2484) -/

/-- The 4-byte magic prefix `b"GGUF"`. -/
def ggufMagic : List Nat := [71, 71, 85, 70]

/-- Rust `file_starts_with(path, magic)`: `none` models a file that cannot
be opened; `read_exact` fails when the file is shorter than the magic;
otherwise the first bytes are compared with the magic. -/
def file_starts_with (content : Option (List Nat)) (magic : List Nat) :
    Bool :=
  match content with
  | none => false
  | some bytes =>
    if bytes.length < magic.length then false
    else decide (bytes.take magic.length = magic)

/-- Post-download check of `ensure_model_with_mode` (lines 1270-1274):
returns the target path on success; on signature mismatch deletes the file
(second component: whether the file still exists) and errors. -/
def downloaded_model_gguf_check (content : List Nat) (target : RPath) :
    Except String RPath × Bool :=
  if file_starts_with (some content) ggufMagic then (.ok target, true)
  else (.error "downloaded model is not a GGUF file (signature mismatch)",
    false)

/-- Post-copy check of `builtin_llm_import_model` (lines 2481-2484). -/
def imported_model_gguf_check (content : List Nat) :
    Except String Unit × Bool :=
  if file_starts_with (some content) ggufMagic then (.ok (), true)
  else (.error "imported model is not a GGUF file (signature mismatch)",
    false)

lemma file_starts_with_iff (content magic : List Nat) :
    file_starts_with (some content) magic = true ↔ magic <+: content := by
  rw [file_starts_with]
  by_cases hlen : content.length < magic.length
  · rw [if_pos hlen]
    constructor
    · intro h; exact absurd h (by simp)
    · intro h
      exact absurd h.length_le (by omega)
  · rw [if_neg hlen]
    rw [decide_eq_true_iff]
    constructor
    · intro h
      rw [List.prefix_iff_eq_take]
      exact h.symm
    · intro h
      exact (List.prefix_iff_eq_take.mp h).symm

/-- C6: for a downloaded or imported model file, a missing `GGUF` magic
prefix makes the check delete the file and return the descriptive
signature-mismatch error, and a present magic prefix makes the check
succeed (returning the path at the download site) with the file kept. -/
theorem C6_gguf_signature_check (content : List Nat) (target : RPath) :
    (ggufMagic <+: content →
      downloaded_model_gguf_check content target = (.ok target, true) ∧
      imported_model_gguf_check content = (.ok (), true)) ∧
    (¬ ggufMagic <+: content →
      downloaded_model_gguf_check content target =
        (.error "downloaded model is not a GGUF file (signature mismatch)",
         false) ∧
      imported_model_gguf_check content =
        (.error "imported model is not a GGUF file (signature mismatch)",
         false)) := by
  constructor
  · intro h
    have hb : file_starts_with (some content) ggufMagic = true :=
      (file_starts_with_iff content ggufMagic).mpr h
    rw [downloaded_model_gguf_check, if_pos hb,
      imported_model_gguf_check, if_pos hb]
    exact ⟨rfl, rfl⟩
  · intro h
    have hb : file_starts_with (some content) ggufMagic = false := by
      cases hv : file_starts_with (some content) ggufMagic
      · rfl
      · exact absurd ((file_starts_with_iff content ggufMagic).mp hv) h
    rw [downloaded_model_gguf_check,
      if_neg (by rw [hb]; exact Bool.false_ne_true),
      imported_model_gguf_check,
      if_neg (by rw [hb]; exact Bool.false_ne_true)]
    exact ⟨rfl, rfl⟩

/-- Witness for C6: a file starting with the `GGUF` bytes passes the
download-site check; a file with other content is deleted by the
import-site check with the descriptive error. -/
theorem C6_gguf_signature_check_witness :
    downloaded_model_gguf_check [71, 71, 85, 70, 9] ["models", "m.gguf"] =
      (.ok ["models", "m.gguf"], true) ∧
    imported_model_gguf_check [1, 2, 3] =
      (.error "imported model is not a GGUF file (signature mismatch)",
       false) := by
  constructor
  · exact ((C6_gguf_signature_check [71, 71, 85, 70, 9]
      ["models", "m.gguf"]).1 ⟨[9], rfl⟩).1
  · refine ((C6_gguf_signature_check [1, 2, 3] ["models", "m.gguf"]).2 ?_).2
    intro h
    exact absurd h.length_le (by decide)

/-! ## Tier selection (builtin_llm.rs, ladders and builtin_llm_recommend) -/

/-- `cpu_performance_tier` (lines 1806-1811). -/
def cpu_performance_tier (cpu_cores : Nat) : Int :=
  if cpu_cores ≥ 24 then 3
  else if cpu_cores ≥ 20 then 2
  else if cpu_cores ≥ 8 then 1
  else 0

/-- `tier_from_resources` (lines 1817-1847). -/
def tier_from_resources (total_mem_gb : Nat) (vram_bytes : Option Nat)
    (compute_mode : String) (cpu_cores : Nat) : Int :=
  let ram_tier : Int :=
    if total_mem_gb < 8 then 0
    else if total_mem_gb < 12 then 1
    else if total_mem_gb < 20 then 2
    else if total_mem_gb < 32 then 3
    else if total_mem_gb < 48 then 4
    else 5
  let cpu_tier := cpu_performance_tier cpu_cores
  if compute_mode = "cpu" then min ram_tier cpu_tier
  else
    let vram_gb := (vram_bytes.getD 0) / 1024 / 1024 / 1024
    let vram_tier : Int :=
      if vram_gb < 4 then 0
      else if vram_gb < 6 then 1
      else if vram_gb < 10 then 2
      else if vram_gb < 12 then 3
      else if vram_gb < 24 then 4
      else 5
    if compute_mode = "gpu" then min ram_tier vram_tier
    else min ram_tier cpu_tier

/-- `cap_tier_by_vram` (lines 1533-1542); `tier.clamp(0, 5)` is
`min (max tier 0) 5`. -/
def cap_tier_by_vram (tier : Int) (vram_bytes : Option Nat) : Int :=
  match vram_bytes with
  | some v =>
    if v > 0 then
      let gb := v / 1024 / 1024 / 1024
      let cap : Int :=
        if gb < 4 then 0 else if gb < 6 then 1 else if gb < 10 then 2
        else if gb < 12 then 3 else if gb < 24 then 4 else 5
      min (max (min tier cap) 0) 5
    else tier
  | none => tier

/-- Rust `str::to_ascii_lowercase` on a string, as characters. -/
def toLowerChars (s : String) : List Char := s.data.map Char.toLower

/-- `is_gpu_worth_using` (lines 1690-1717). -/
def is_gpu_worth_using (gpu_name : Option String) (vram_bytes : Option Nat)
    (is_apple_silicon : Bool) : Bool :=
  if is_apple_silicon then true
  else
    let vram_gb := (vram_bytes.getD 0) / 1024 / 1024 / 1024
    if vram_gb < 2 then false
    else
      match gpu_name with
      | some name =>
        let lower := toLowerChars name
        if hasSub lower "intel".data &&
            (hasSub lower "uhd".data || hasSub lower " hd ".data ||
              hasSub lower "iris".data) then false
        else if hasSub lower "idddriver".data ||
            hasSub lower "virtual".data || hasSub lower "remote".data then
          false
        else true
      | none => true

/-- `tier_to_model_id` (lines 1849-1858). -/
def tier_to_model_id (tier : Int) (_total_mem_gb : Nat) : String :=
  if tier = 5 then "qwen3_32b_q4_k_m"
  else if tier = 4 then "qwen3_14b_q4_k_m"
  else if tier = 3 then "qwen3_8b_q4_k_m"
  else if tier = 2 then "qwen3_4b_q4_k_m"
  else if tier = 1 then "qwen3_1_7b_q4_k_m"
  else "qwen3_0_6b_q4_k_m"

/-- `parse_preferred_tier` (lines 1860-1874). -/
def parse_preferred_tier (raw : Option String) : Option Int :=
  match raw with
  | none => none
  | some r0 =>
    let r := trimBy (fun c => c.isWhitespace) r0.data
    if r.map Char.toLower = "auto".data || r.isEmpty then none
    else if r = "0".data then some 0
    else if r = "1".data then some 1
    else if r = "2".data then some 2
    else if r = "3".data then some 3
    else if r = "4".data then some 4
    else if r = "5".data then some 5
    else none

/-- `normalize_preferred_compute` (lines 1876-1883). -/
def normalize_preferred_compute (raw : Option String) : Option String :=
  match raw with
  | some "cpu" => some "cpu"
  | some "gpu" => some "gpu"
  | some "hybrid" => some "hybrid"
  | _ => none

/-- `normalize_cuda_version` (lines 242-247). -/
def normalize_cuda_version (raw : Option String) : String :=
  match raw with
  | some "13.1" => "13.1"
  | _ => "12.4"

/-- `normalize_compute_mode` (lines 298-304). -/
def normalize_compute_mode (raw : Option String) : String :=
  match raw with
  | some "gpu" => "gpu"
  | some "hybrid" => "hybrid"
  | _ => "cpu"

/-- `normalize_gpu_backend` (lines 306-317), for the non-macOS default
(`vulkan`). -/
def normalize_gpu_backend (raw : Option String) : String :=
  match raw with
  | some "cuda" => "cuda"
  | some "CUDA" => "cuda"
  | some "metal" => "metal"
  | some "Metal" => "metal"
  | _ => "vulkan"

/-- `BuiltinProbeResult` (lines 1557-1577): the hardware probe outcome,
passed into the pure recommendation logic. -/
structure BuiltinProbeResult where
  cpu_cores : Nat
  cpu_brand : String
  total_memory_bytes : Nat
  vram_bytes : Option Nat
  gpu_name : Option String
  has_cuda : Bool
  has_vulkan : Bool
  has_metal : Bool
  is_apple_silicon : Bool
deriving DecidableEq

/-- `BuiltinRecommendOptions` (lines 1885-1893). -/
structure BuiltinRecommendOptions where
  preferred_tier : Option String
  preferred_compute : Option String
  cuda_version : Option String

/-- `BuiltinRecommendResult` (lines 1895-1906). -/
structure BuiltinRecommendResult where
  recommended_model_id : String
  recommended_compute_mode : String
  recommended_gpu_backend : String
  recommended_cuda_version : String
  probe : BuiltinProbeResult
deriving DecidableEq

/-- The backend/mode choice of `builtin_llm_recommend` (lines 1919-1936). -/
def recommend_mode_backend (probe : BuiltinProbeResult)
    (preferred_compute : Option String) (gpu_useful : Bool) :
    String × String :=
  match preferred_compute with
  | some pc =>
    let backend :=
      if (pc == "gpu" || pc == "hybrid") && probe.has_cuda then "cuda"
      else if (pc == "gpu" || pc == "hybrid") && probe.has_metal then "metal"
      else normalize_gpu_backend none
    (pc, backend)
  | none =>
    if probe.has_metal && gpu_useful then ("gpu", "metal")
    else if probe.has_cuda && gpu_useful then ("gpu", "cuda")
    else if probe.has_vulkan && gpu_useful then ("hybrid", "vulkan")
    else ("cpu", "none")

/-- `builtin_llm_recommend` (lines 1908-1955), with the hardware probe
result supplied as a parameter (the probe itself is platform I/O). -/
def builtin_llm_recommend (probe : BuiltinProbeResult)
    (options : Option BuiltinRecommendOptions) : BuiltinRecommendResult :=
  let total_mem_gb := probe.total_memory_bytes / 1024 / 1024 / 1024
  let preferred_tier :=
    parse_preferred_tier (options.bind (fun o => o.preferred_tier))
  let preferred_compute :=
    normalize_preferred_compute (options.bind (fun o => o.preferred_compute))
  let cuda_version :=
    normalize_cuda_version (options.bind (fun o => o.cuda_version))
  let gpu_useful :=
    is_gpu_worth_using probe.gpu_name probe.vram_bytes probe.is_apple_silicon
  let cm := recommend_mode_backend probe preferred_compute gpu_useful
  let compute_mode := cm.1
  let gpu_backend := cm.2
  let tier0 := preferred_tier.getD
    (tier_from_resources total_mem_gb probe.vram_bytes compute_mode
      probe.cpu_cores)
  let tier1 := min (max tier0 0) 5
  let tier :=
    if compute_mode = "gpu" ∨ compute_mode = "hybrid" then
      cap_tier_by_vram tier1 probe.vram_bytes
    else tier1
  { recommended_model_id := tier_to_model_id tier total_mem_gb
    recommended_compute_mode := compute_mode
    recommended_gpu_backend := gpu_backend
    recommended_cuda_version := cuda_version
    probe := probe }

lemma tier_from_resources_gpu_8gb (g cores : Nat) (h1 : 32 ≤ g)
    (h2 : g < 48) :
    tier_from_resources g (some (8 * 1024 * 1024 * 1024)) "gpu" cores = 2 := by
  rw [tier_from_resources]
  simp only [Option.getD_some]
  rw [if_neg (show ¬("gpu" = "cpu") from by decide)]
  rw [if_pos (show True from trivial)]
  rw [if_neg (show ¬(g < 8) from by omega),
    if_neg (show ¬(g < 12) from by omega),
    if_neg (show ¬(g < 20) from by omega),
    if_neg (show ¬(g < 32) from by omega),
    if_pos (show g < 48 from h2)]
  norm_num

/-- C8: a hardware profile with exactly 8 GB of VRAM and a usable dedicated
GPU (non-Apple, CUDA available, no deny-listed GPU name) whose RAM ladder
alone would allow tier 4 (32-48 GB of RAM) is recommended compute mode
`gpu` with the tier-2 model `qwen3_4b_q4_k_m`: the VRAM ladder's `< 10 GB`
bracket caps the tier at 2. -/
theorem C8_recommend_8gb_vram_caps_tier2 (probe : BuiltinProbeResult)
    (hvram : probe.vram_bytes = some (8 * 1024 * 1024 * 1024))
    (happle : probe.is_apple_silicon = false)
    (hmetal : probe.has_metal = false)
    (hcuda : probe.has_cuda = true)
    (hname : probe.gpu_name = none)
    (hmem_lo : 32 ≤ probe.total_memory_bytes / 1024 / 1024 / 1024)
    (hmem_hi : probe.total_memory_bytes / 1024 / 1024 / 1024 < 48) :
    tier_from_resources (probe.total_memory_bytes / 1024 / 1024 / 1024)
        probe.vram_bytes "gpu" probe.cpu_cores = 2 ∧
    (builtin_llm_recommend probe none).recommended_compute_mode = "gpu" ∧
    (builtin_llm_recommend probe none).recommended_gpu_backend = "cuda" ∧
    (builtin_llm_recommend probe none).recommended_model_id =
      "qwen3_4b_q4_k_m" := by
  obtain ⟨cores, brand, mem, vram, name, hc, hv, hm, apple⟩ := probe
  simp only at hvram happle hmetal hcuda hname hmem_lo hmem_hi
  subst hvram happle hmetal hcuda hname
  have huseful : is_gpu_worth_using none (some (8 * 1024 * 1024 * 1024))
      false = true := by decide
  have hmode : recommend_mode_backend
      ⟨cores, brand, mem, some (8 * 1024 * 1024 * 1024), none, true, hv,
        false, false⟩ none true = ("gpu", "cuda") := by
    rw [recommend_mode_backend]
    simp
  have htier := tier_from_resources_gpu_8gb
    (mem / 1024 / 1024 / 1024) cores hmem_lo hmem_hi
  have hrec : builtin_llm_recommend
      ⟨cores, brand, mem, some (8 * 1024 * 1024 * 1024), none, true, hv,
        false, false⟩ none =
      { recommended_model_id := "qwen3_4b_q4_k_m"
        recommended_compute_mode := "gpu"
        recommended_gpu_backend := "cuda"
        recommended_cuda_version := "12.4"
        probe := ⟨cores, brand, mem, some (8 * 1024 * 1024 * 1024), none,
          true, hv, false, false⟩ } := by
    rw [builtin_llm_recommend]
    dsimp only [Option.bind, normalize_preferred_compute,
      parse_preferred_tier, normalize_cuda_version]
    rw [huseful, hmode]
    dsimp only
    rw [Option.getD_none, htier]
    rw [show min (max (2:Int) 0) 5 = 2 from by decide]
    rw [if_pos (show ("gpu" = "gpu" ∨ "gpu" = "hybrid") from Or.inl rfl)]
    rw [show cap_tier_by_vram 2 (some (8 * 1024 * 1024 * 1024)) = 2 from
      by decide]
    rfl
  exact ⟨htier, by rw [hrec], by rw [hrec], by rw [hrec]⟩

/-- Witness for C8: a machine with 16 cores, 32 GB RAM, and an 8 GB CUDA
GPU is recommended the tier-2 model in GPU mode. -/
theorem C8_recommend_8gb_vram_caps_tier2_witness :
    (builtin_llm_recommend
      ⟨16, "cpu16", 32 * 1024 * 1024 * 1024, some (8 * 1024 * 1024 * 1024),
        none, true, false, false, false⟩ none).recommended_model_id =
      "qwen3_4b_q4_k_m" ∧
    (builtin_llm_recommend
      ⟨16, "cpu16", 32 * 1024 * 1024 * 1024, some (8 * 1024 * 1024 * 1024),
        none, true, false, false, false⟩ none).recommended_compute_mode =
      "gpu" := by
  have h := C8_recommend_8gb_vram_caps_tier2
    ⟨16, "cpu16", 32 * 1024 * 1024 * 1024, some (8 * 1024 * 1024 * 1024),
      none, true, false, false, false⟩
    rfl rfl rfl rfl rfl (by norm_num) (by norm_num)
  exact ⟨h.2.2.2, h.2.1⟩

/-! ## Process supervisor (builtin_llm.rs, BuiltinLlmManager and the
ensure-running / stop / delete command paths) -/

/-- Rust `str::trim_end_matches(sfx)`: repeatedly strip the suffix.  The
fuel is the string length, enough for every repetition. -/
def trimEndMatchesAux (sfx : List Char) : Nat → List Char → List Char
  | 0, l => l
  | fuel + 1, l =>
    if sfx ≠ [] ∧ sfx.isSuffixOf l then
      trimEndMatchesAux sfx fuel (l.take (l.length - sfx.length))
    else l

/-- Rust `str::trim_end_matches`. -/
def trimEndMatches (sfx : String) (s : String) : String :=
  String.mk (trimEndMatchesAux sfx.data s.data.length s.data)

/-- Portion of a file name before its final `.` (Rust `Path::file_stem`
component rule). -/
def dropAfterLastDot (l : List Char) : List Char :=
  if '.' ∈ l then ((l.reverse.dropWhile (fun c => c ≠ '.')).drop 1).reverse
  else l

/-- Rust `Path::file_stem` on one component: a leading-dot name with no
other dot is its own stem; otherwise everything before the final dot. -/
def fileStemChars (l : List Char) : List Char :=
  match l with
  | [] => []
  | c :: rest => if c = '.' ∧ '.' ∉ rest then l else dropAfterLastDot l

/-- Rust `Path::file_stem` of a path: the stem of its last component
(`none` for the empty path). -/
def path_file_stem (p : RPath) : Option String :=
  match p.getLast? with
  | none => none
  | some last => some (String.mk (fileStemChars last.data))

/-- `is_builtin_qwen3_model_id` (lines 342-352), as the id list used by
`model_id_from_path` (lines 430-437). -/
def builtin_qwen3_ids : List String :=
  ["qwen3_0_6b_q4_k_m", "qwen3_1_7b_q4_k_m", "qwen3_4b_q4_k_m",
    "qwen3_8b_q4_k_m", "qwen3_14b_q4_k_m", "qwen3_32b_q4_k_m"]

/-- `is_builtin_qwen3_model_id` (lines 342-352). -/
def is_builtin_qwen3_model_id (model_id : String) : Bool :=
  builtin_qwen3_ids.contains model_id

/-- `model_file_name` (lines 354-364). -/
def model_file_name (model_id : String) : String :=
  if model_id = "qwen3_0_6b_q4_k_m" then "Qwen3-0.6B-Q4_K_M.gguf"
  else if model_id = "qwen3_1_7b_q4_k_m" then "Qwen3-1.7B-Q4_K_M.gguf"
  else if model_id = "qwen3_4b_q4_k_m" then "Qwen3-4B-Q4_K_M.gguf"
  else if model_id = "qwen3_8b_q4_k_m" then "Qwen3-8B-Q4_K_M.gguf"
  else if model_id = "qwen3_14b_q4_k_m" then "Qwen3-14B-Q4_K_M.gguf"
  else if model_id = "qwen3_32b_q4_k_m" then "Qwen3-32B-Q4_K_M.gguf"
  else "Qwen3-0.6B-Q4_K_M.gguf"

/-- `legacy_model_file_name` (lines 366-371). -/
def legacy_model_file_name (model_id : String) : Option String :=
  if model_id = "q8_0" then some "Qwen3-Embedding-0.6B-Q8_0.gguf" else none

/-- `model_file_path` (lines 413-419). -/
def model_file_path (models_dir : RPath) (model_id : String) : RPath :=
  if is_builtin_qwen3_model_id model_id then
    models_dir ++ [model_file_name model_id]
  else
    models_dir ++ [trimEndMatches ".gguf" model_id ++ ".gguf"]

/-- `model_candidate_paths` (lines 421-427). -/
def model_candidate_paths (models_dir : RPath) (model_id : String) :
    List RPath :=
  let out := [model_file_path models_dir model_id]
  match legacy_model_file_name model_id with
  | some legacy => out ++ [models_dir ++ [legacy]]
  | none => out

/-- `model_id_from_path` (lines 429-453): first match the six builtin
paths, then strip the models-dir prefix and sanitize the file stem. -/
def model_id_from_path (models_dir : RPath) (path : RPath) : Option String :=
  match builtin_qwen3_ids.find?
      (fun id => path == model_file_path models_dir id) with
  | some id => some id
  | none =>
    if models_dir.isPrefixOf path then
      match path_file_stem (path.drop models_dir.length) with
      | some stem =>
        let id := sanitize_model_id (some stem)
        if id ≠ "" then some id else none
      | none => none
    else none

/-- Rust `str::eq_ignore_ascii_case`. -/
def eqIgnoreAsciiCase (a b : String) : Bool :=
  a.data.map Char.toLower == b.data.map Char.toLower

/-- `runtime_dir` (lines 249-263). -/
def runtime_dir (llm_dir : RPath)
    (compute_mode gpu_backend cuda_version : String) : RPath :=
  let base := llm_dir ++ ["runtime"]
  if compute_mode = "gpu" ∨ compute_mode = "hybrid" then
    if eqIgnoreAsciiCase gpu_backend "cuda" then
      base ++ ["cuda-" ++ cuda_version]
    else if eqIgnoreAsciiCase gpu_backend "metal" then base ++ ["metal"]
    else base ++ ["vulkan"]
  else base ++ ["cpu"]

/-- Read-only filesystem oracles used by the status queries:
`pathExists` is `Path::exists`, `findLlamaServer` is `find_llama_server`
(lines 455-479, a directory walk). -/
structure FsView where
  pathExists : RPath → Bool
  findLlamaServer : RPath → Option RPath

/-- `runtime_installed` (lines 983-986). -/
def runtime_installed (fs : FsView) (llm_dir : RPath)
    (compute_mode gpu_backend : String) : Bool :=
  (fs.findLlamaServer
    (runtime_dir llm_dir compute_mode gpu_backend "12.4")).isSome

/-- The supervised child process handle: whether `try_wait` would report
it exited, and whether `try_wait` itself errors. -/
structure ChildProc where
  exited : Bool
  waitErr : Bool
deriving DecidableEq, Repr

/-- `BuiltinLlmManager` (lines 77-85): the mutex-guarded fields. -/
structure MgrState where
  child : Option ChildProc
  port : Option Nat
  model_path : Option RPath
  compute_mode : Option String
  gpu_backend : Option String
  gpu_layers : Option Int
  cuda_version : Option String
deriving DecidableEq

/-- `BuiltinLlmManager::is_running` (lines 100-114): a reaped exited child
clears the handle; a `try_wait` error reports not-running but keeps the
handle. -/
def is_running (s : MgrState) : Bool × MgrState :=
  match s.child with
  | none => (false, s)
  | some c =>
    if c.waitErr then (false, s)
    else if c.exited then (false, { s with child := none })
    else (true, s)

/-- `BuiltinLlmManager::current_port` (lines 116-118). -/
def current_port (s : MgrState) : Option Nat := s.port

/-- `BuiltinLlmManager::current_model_path` (lines 120-122). -/
def current_model_path (s : MgrState) : Option RPath := s.model_path

/-- `BuiltinLlmManager::set_running` (lines 124-141). -/
def set_running (child : ChildProc) (port : Nat) (model_path : RPath)
    (compute_mode gpu_backend : String) (gpu_layers : Int)
    (cuda_version : String) : MgrState :=
  { child := some child, port := some port, model_path := some model_path,
    compute_mode := some compute_mode, gpu_backend := some gpu_backend,
    gpu_layers := some gpu_layers, cuda_version := some cuda_version }

/-- The OS-level termination performed by `stop`: killing the tracked
child (and its tree on Windows), or looking up and killing the process
listening on the recorded port when the handle was lost. -/
inductive KillAction where
  | killChildTree
  | killByPort (port : Nat)
deriving DecidableEq, Repr

/-- The all-`None` manager state left behind by `stop`. -/
def stoppedState : MgrState := ⟨none, none, none, none, none, none, none⟩

/-- `BuiltinLlmManager::stop` (lines 143-189): take and kill the child if
present, otherwise kill by recorded port; then clear every field. -/
def stop (s : MgrState) : MgrState × List KillAction :=
  match s.child with
  | some _ => (stoppedState, [KillAction.killChildTree])
  | none =>
    match s.port with
    | some p => (stoppedState, [KillAction.killByPort p])
    | none => (stoppedState, [])

/-- `BuiltinLlmStatus` (lines 39-54). -/
structure BuiltinLlmStatus where
  runtime_installed : Bool
  model_installed : Bool
  model_id : String
  running_model_id : Option String
  running_this_model : Bool
  running : Bool
  base_url : Option String
deriving DecidableEq

/-- `BuiltinLlmOptions` (lines 56-75). -/
structure BuiltinLlmOptions where
  model_id : Option String
  mode : Option String
  compute_mode : Option String
  gpu_backend : Option String
  gpu_layers : Option Int
  cuda_version : Option String
  model_url : Option String
  runtime_url : Option String
  cudart_url : Option String
deriving DecidableEq

/-- `status_from` (lines 1277-1307); returns the status together with the
manager state as left by the embedded `is_running` call. -/
def status_from (fs : FsView) (llm_dir models_dir : RPath) (s : MgrState)
    (model_id : String) : BuiltinLlmStatus × MgrState :=
  let pr := is_running s
  let running := pr.1
  let s1 := pr.2
  let running_model_id :=
    if running then s1.model_path.bind (model_id_from_path models_dir)
    else none
  let running_this_model := running_model_id == some model_id
  let base_url :=
    if running then s1.port.map (fun p => "http://127.0.0.1:" ++ toString p)
    else none
  ({ runtime_installed := runtime_installed fs llm_dir "cpu" "vulkan"
     model_installed :=
       (model_candidate_paths models_dir model_id).any fs.pathExists
     model_id := model_id
     running_model_id := running_model_id
     running_this_model := running_this_model
     running := running
     base_url := base_url }, s1)

/-- `status_from_options` (lines 1309-1323): as `status_from`, with
`runtime_installed` recomputed per requested mode/backend/CUDA version. -/
def status_from_options (fs : FsView) (llm_dir models_dir : RPath)
    (s : MgrState) (model_id : String)
    (options : Option BuiltinLlmOptions) : BuiltinLlmStatus × MgrState :=
  let compute_mode :=
    normalize_compute_mode (options.bind (fun o => o.compute_mode))
  let gpu_backend :=
    normalize_gpu_backend (options.bind (fun o => o.gpu_backend))
  let cuda_version :=
    normalize_cuda_version (options.bind (fun o => o.cuda_version))
  let pr := status_from fs llm_dir models_dir s model_id
  let rt :=
    if compute_mode = "gpu" ∨ compute_mode = "hybrid" then
      (fs.findLlamaServer
        (runtime_dir llm_dir compute_mode gpu_backend cuda_version)).isSome
    else runtime_installed fs llm_dir compute_mode gpu_backend
  ({ pr.1 with runtime_installed := rt }, pr.2)

/-- The configuration comparison of `ensure_running_impl` (lines
2158-2198), on the manager state already known to be running: model
identity, compute mode, backend, GPU-layer count only in hybrid mode,
CUDA version only for the CUDA backend. -/
def same_config (models_dir : RPath) (options : Option BuiltinLlmOptions)
    (s : MgrState) : Bool :=
  let model_id := sanitize_model_id (options.bind (fun o => o.model_id))
  let compute_mode :=
    normalize_compute_mode (options.bind (fun o => o.compute_mode))
  let gpu_backend :=
    normalize_gpu_backend (options.bind (fun o => o.gpu_backend))
  let cuda_version :=
    normalize_cuda_version (options.bind (fun o => o.cuda_version))
  let gpu_layers := max ((options.bind (fun o => o.gpu_layers)).getD 20) 0
  let current_id := s.model_path.bind (model_id_from_path models_dir)
  let current_compute := s.compute_mode.getD "cpu"
  let current_backend := s.gpu_backend.getD "vulkan"
  let current_layers := s.gpu_layers.getD 0
  let current_cuda := s.cuda_version.getD "12.4"
  let same_compute := current_compute == compute_mode
  let same_backend := current_backend == gpu_backend
  let same_layers :=
    !(compute_mode == "hybrid") || (current_layers == gpu_layers)
  let same_cuda :=
    !(eqIgnoreAsciiCase gpu_backend "cuda") || (current_cuda == cuda_version)
  (current_id == some model_id) && same_compute && same_backend &&
    same_layers && same_cuda

/-- Outcomes of the effectful steps of a start attempt, supplied as an
environment: `ensure_runtime_with_mode`, `ensure_model_with_mode`,
`pick_free_port`, `Command::spawn`, and `wait_port_open`. -/
structure StartEnv where
  ensure_runtime : Except String RPath
  ensure_model : Except String RPath
  pick_free_port : Except String Nat
  spawn : Except String ChildProc
  port_opened : Bool

/-- Supervisor-level actions taken by `ensure_running_impl`, in order:
stopping the running server, spawning a new one on a port. -/
inductive SupAction where
  | stopped
  | spawned (port : Nat)
deriving DecidableEq, Repr

/-- The start path of `ensure_running_impl` (lines 2204-2262): ensure
runtime and model, pick a port, spawn, record the running server, then
wait for the port to open (a timeout is a fatal start error, with the
spawned child left recorded). -/
def start_server (env : StartEnv) (fs : FsView) (llm_dir models_dir : RPath)
    (model_id compute_mode gpu_backend cuda_version : String)
    (gpu_layers : Int) (s : MgrState) (acts : List SupAction) :
    Except String BuiltinLlmStatus × MgrState × List SupAction :=
  match env.ensure_runtime with
  | .error e => (.error e, s, acts)
  | .ok _server =>
    match env.ensure_model with
    | .error e => (.error e, s, acts)
    | .ok model =>
      match env.pick_free_port with
      | .error e => (.error e, s, acts)
      | .ok port =>
        match env.spawn with
        | .error e => (.error e, s, acts)
        | .ok child =>
          let s2 := set_running child port model compute_mode gpu_backend
            gpu_layers cuda_version
          let acts2 := acts ++ [SupAction.spawned port]
          if env.port_opened then
            let pr := status_from fs llm_dir models_dir s2 model_id
            (.ok pr.1, pr.2, acts2)
          else (.error "llama-server failed to start", s2, acts2)

/-- `ensure_running_impl` (lines 2138-2263).  When a server is running and
every compared configuration field matches, the current status is returned
(no action); otherwise the current server is stopped before the start path
runs.  The cancel-flag reset and progress channel are stateless here. -/
def ensure_running_impl (env : StartEnv) (fs : FsView)
    (llm_dir models_dir : RPath) (options : Option BuiltinLlmOptions)
    (s : MgrState) :
    Except String BuiltinLlmStatus × MgrState × List SupAction :=
  let model_id := sanitize_model_id (options.bind (fun o => o.model_id))
  let compute_mode :=
    normalize_compute_mode (options.bind (fun o => o.compute_mode))
  let gpu_backend :=
    normalize_gpu_backend (options.bind (fun o => o.gpu_backend))
  let cuda_version :=
    normalize_cuda_version (options.bind (fun o => o.cuda_version))
  let gpu_layers := max ((options.bind (fun o => o.gpu_layers)).getD 20) 0
  let pr := is_running s
  if pr.1 then
    if same_config models_dir options pr.2 then
      let st := status_from_options fs llm_dir models_dir pr.2 model_id
        options
      (.ok st.1, st.2, [])
    else
      let sp := stop pr.2
      start_server env fs llm_dir models_dir model_id compute_mode
        gpu_backend cuda_version gpu_layers sp.1 [SupAction.stopped]
  else
    start_server env fs llm_dir models_dir model_id compute_mode
      gpu_backend cuda_version gpu_layers pr.2 []

/-- `builtin_llm_delete_model`, deletion loop (lines 2297-2303): remove
each existing candidate path, tracking whether anything was deleted. -/
def delete_candidates : List RPath → List RPath → List RPath × Bool
  | fs0, [] => (fs0, false)
  | fs0, cand :: rest =>
    if fs0.contains cand then
      let fs1 := fs0.filter (fun p => p ≠ cand)
      ((delete_candidates fs1 rest).1, true)
    else delete_candidates fs0 rest

/-- `builtin_llm_delete_model` (lines 2283-2308).  The filesystem is the
list of existing model paths; removals themselves succeed.  The source
wraps the id in single quotes in the not-found message; the quotes are
omitted here. -/
def builtin_llm_delete_model (fs0 : List RPath) (models_dir : RPath)
    (options : Option BuiltinLlmOptions) (s : MgrState) :
    Except String Unit × List RPath × MgrState :=
  let model_id := sanitize_model_id (options.bind (fun o => o.model_id))
  let pr := is_running s
  let s1 := pr.2
  let proceed : Except String Unit × List RPath × MgrState :=
    let dr := delete_candidates fs0 (model_candidate_paths models_dir
      model_id)
    if dr.2 then (.ok (), dr.1, s1)
    else (.error ("Model file not found for " ++ model_id), dr.1, s1)
  if pr.1 then
    if s1.model_path.bind (model_id_from_path models_dir) ==
        some model_id then
      (.error "Cannot delete a model that is currently running. Stop it first.",
       fs0, s1)
    else proceed
  else proceed

/-- C10: after `stop` returns, every manager field is `None` whatever the
prior state was: `is_running` is false, `current_port` and
`current_model_path` are `None`, any status report built on this state has
`running = false`, `baseUrl = None` and no running model id, and a second
`stop` is a no-op (same cleared state, no kill action). -/
theorem C10_stop_clears_state (s : MgrState) (fs : FsView)
    (llm_dir models_dir : RPath) (model_id : String) :
    (stop s).1 = stoppedState ∧
    is_running (stop s).1 = (false, stoppedState) ∧
    current_port (stop s).1 = none ∧
    current_model_path (stop s).1 = none ∧
    (status_from fs llm_dir models_dir (stop s).1 model_id).1.running =
      false ∧
    (status_from fs llm_dir models_dir (stop s).1 model_id).1.base_url =
      none ∧
    (status_from fs llm_dir models_dir (stop s).1
      model_id).1.running_model_id = none ∧
    stop (stop s).1 = (stoppedState, []) := by
  obtain ⟨ch, po, mp, cm, gb, gl, cv⟩ := s
  have h1 : (stop ⟨ch, po, mp, cm, gb, gl, cv⟩).1 = stoppedState := by
    cases ch with
    | some c => rfl
    | none =>
      cases po with
      | some p => rfl
      | none => rfl
  rw [h1]
  exact ⟨rfl, rfl, rfl, rfl, rfl, rfl, rfl, rfl⟩

/-- C9: a delete request for the model that is currently running is
rejected synchronously with the precondition error; the filesystem and the
supervisor state are unchanged. -/
theorem C9_delete_running_model_rejected (fs0 : List RPath)
    (models_dir : RPath) (options : Option BuiltinLlmOptions) (s : MgrState)
    (c : ChildProc) (hchild : s.child = some c) (halive : c.exited = false)
    (hwerr : c.waitErr = false)
    (hcur : s.model_path.bind (model_id_from_path models_dir) =
      some (sanitize_model_id (options.bind (fun o => o.model_id)))) :
    builtin_llm_delete_model fs0 models_dir options s =
      (.error
        "Cannot delete a model that is currently running. Stop it first.",
       fs0, s) := by
  have hrun : is_running s = (true, s) := by
    rw [is_running, hchild]
    dsimp only
    rw [hwerr, halive]
    rfl
  rw [builtin_llm_delete_model]
  dsimp only
  rw [hrun]
  dsimp only
  rw [if_pos rfl, hcur, if_pos (by rw [beq_self_eq_true])]

/-- The action list of a start attempt extends the incoming action list
(at most one `spawned` is appended). -/
lemma start_server_acts_append (env : StartEnv) (fs : FsView)
    (llm_dir models_dir : RPath) (mid cm gb cv : String) (gl : Int)
    (s : MgrState) (acts : List SupAction) :
    ∃ tail, (start_server env fs llm_dir models_dir mid cm gb cv gl s
      acts).2.2 = acts ++ tail := by
  rw [start_server]
  match env.ensure_runtime with
  | .error e => exact ⟨[], by simp⟩
  | .ok server =>
    match env.ensure_model with
    | .error e => exact ⟨[], by simp⟩
    | .ok model =>
      match env.pick_free_port with
      | .error e => exact ⟨[], by simp⟩
      | .ok port =>
        match env.spawn with
        | .error e => exact ⟨[], by simp⟩
        | .ok child =>
          dsimp only
          by_cases hp : env.port_opened = true
          · rw [if_pos hp]
            exact ⟨[SupAction.spawned port], rfl⟩
          · rw [if_neg hp]
            exact ⟨[SupAction.spawned port], rfl⟩

/-- C1: with a server running, `ensure_running_impl` compares the
requested configuration against the running one (`same_config`: model
identity, compute mode, backend, GPU layers only in hybrid mode, CUDA
version only for the CUDA backend).  On a full match it performs no
action, leaves the manager state untouched and returns a running status
whose base URL carries the existing port (reuse); on any mismatch its
first action is stopping the running server, before any spawn. -/
theorem C1_ensure_running_reuse_or_restart (env : StartEnv) (fs : FsView)
    (llm_dir models_dir : RPath) (options : Option BuiltinLlmOptions)
    (s : MgrState) (c : ChildProc) (hchild : s.child = some c)
    (halive : c.exited = false) (hwerr : c.waitErr = false) :
    (same_config models_dir options s = true →
      (ensure_running_impl env fs llm_dir models_dir options s).2.2 = [] ∧
      (ensure_running_impl env fs llm_dir models_dir options s).2.1 = s ∧
      ∃ st, (ensure_running_impl env fs llm_dir models_dir options s).1 =
          .ok st ∧
        st.running = true ∧
        st.base_url =
          s.port.map (fun p => "http://127.0.0.1:" ++ toString p)) ∧
    (same_config models_dir options s = false →
      (ensure_running_impl env fs llm_dir models_dir options s).2.2.head? =
        some SupAction.stopped) := by
  have hrun : is_running s = (true, s) := by
    rw [is_running, hchild]
    dsimp only
    rw [hwerr, halive]
    rfl
  constructor
  · intro hsame
    rw [ensure_running_impl]
    dsimp only
    rw [hrun]
    dsimp only
    rw [if_pos rfl, if_pos hsame]
    have hsf : status_from fs llm_dir models_dir s
        (sanitize_model_id (options.bind (fun o => o.model_id))) =
        ({ runtime_installed := runtime_installed fs llm_dir "cpu" "vulkan"
           model_installed := (model_candidate_paths models_dir
             (sanitize_model_id (options.bind (fun o => o.model_id)))).any
             fs.pathExists
           model_id := sanitize_model_id (options.bind (fun o => o.model_id))
           running_model_id := s.model_path.bind
             (model_id_from_path models_dir)
           running_this_model := s.model_path.bind
             (model_id_from_path models_dir) ==
             some (sanitize_model_id (options.bind (fun o => o.model_id)))
           running := true
           base_url :=
             s.port.map (fun p => "http://127.0.0.1:" ++ toString p) }, s)
          := by
      rw [status_from, hrun]
      rfl
    rw [status_from_options]
    rw [hsf]
    exact ⟨rfl, rfl, _, rfl, rfl, rfl⟩
  · intro hdiff
    rw [ensure_running_impl]
    dsimp only
    rw [hrun]
    dsimp only
    rw [if_pos rfl, if_neg (by rw [hdiff]; exact Bool.false_ne_true)]
    obtain ⟨tail, htail⟩ := start_server_acts_append env fs llm_dir
      models_dir (sanitize_model_id (options.bind (fun o => o.model_id)))
      (normalize_compute_mode (options.bind (fun o => o.compute_mode)))
      (normalize_gpu_backend (options.bind (fun o => o.gpu_backend)))
      (normalize_cuda_version (options.bind (fun o => o.cuda_version)))
      (max ((options.bind (fun o => o.gpu_layers)).getD 20) 0)
      (stop s).1 [SupAction.stopped]
    rw [htail]
    rfl

/-- Manager state for the C1 witness: a live server on port 8080 running
the default model on CPU. -/
def c1state : MgrState :=
  ⟨some ⟨false, false⟩, some 8080,
    some ["models", "Qwen3-0.6B-Q4_K_M.gguf"], some "cpu", some "vulkan",
    some 0, some "12.4"⟩

/-- Environment for the C1 witness start path. -/
def c1env : StartEnv :=
  ⟨.ok ["llm", "runtime", "cpu", "llama-server"],
    .ok ["models", "Qwen3-1.7B-Q4_K_M.gguf"], .ok 9090,
    .ok ⟨false, false⟩, true⟩

/-- Filesystem view for the C1 witness. -/
def c1fs : FsView := ⟨fun _ => false, fun _ => none⟩

/-- Witness for C1: requesting the running default model again performs no
action; requesting a different model makes the first action a stop. -/
theorem C1_ensure_running_reuse_or_restart_witness :
    (ensure_running_impl c1env c1fs ["llm"] ["models"] none
      c1state).2.2 = [] ∧
    (ensure_running_impl c1env c1fs ["llm"] ["models"]
      (some ⟨some "qwen3_1_7b_q4_k_m", none, none, none, none, none, none,
        none, none⟩) c1state).2.2.head? = some SupAction.stopped := by
  constructor
  · exact ((C1_ensure_running_reuse_or_restart c1env c1fs ["llm"]
      ["models"] none c1state ⟨false, false⟩ rfl rfl rfl).1 (by decide)).1
  · exact (C1_ensure_running_reuse_or_restart c1env c1fs ["llm"]
      ["models"] (some ⟨some "qwen3_1_7b_q4_k_m", none, none, none, none,
        none, none, none, none⟩) c1state ⟨false, false⟩ rfl rfl rfl).2
      (by decide)

/-- Witness for C9: deleting the running default model is rejected with
the filesystem and manager state unchanged. -/
theorem C9_delete_running_model_rejected_witness :
    builtin_llm_delete_model [["models", "Qwen3-0.6B-Q4_K_M.gguf"]]
      ["models"] none c1state =
      (.error
        "Cannot delete a model that is currently running. Stop it first.",
       [["models", "Qwen3-0.6B-Q4_K_M.gguf"]], c1state) := by
  exact C9_delete_running_model_rejected
    [["models", "Qwen3-0.6B-Q4_K_M.gguf"]] ["models"] none c1state
    ⟨false, false⟩ rfl rfl rfl (by decide)

end Aireader
